import Mathlib

/-!
Verification development for the SOCrates three-tier beaconing detection
pipeline (`backend/src/socrates`).  The Python services are shallowly
embedded:

* floating point numbers are modelled as exact rationals (`ℚ`);
* `np.std`/`np.sqrt` take irrational values, so every function that uses a
  standard deviation is parameterised by the square-root interpretation
  `sqrtFn : ℚ → ℚ`.  Theorems are proved for every `sqrtFn`, hence in
  particular for the real square root restricted to the rational values the
  code actually produces.  Concrete executions instantiate `sqrtFn` with
  `ratSqrt`, which agrees with the real square root whenever the radicand
  is a perfect square of a rational (all concrete inputs below only take
  square roots of such values, mostly `0`);
* Python dicts are insertion ordered, so they are embedded as association
  lists / first-occurrence key lists;
* `list.sort` / `np.argsort` (insertion sort for the short arrays that occur
  here) are stable, and are embedded by the stable insertion sort `sortBy`;
* the fitted `StandardScaler` and `IsolationForest` are on-disk artifacts
  loaded by `tier2_ml.py`; they are embedded as parameters: the scaler as its
  `(mean_, scale_)` data, the forest by its per-row scoring function
  `g : List ℚ → ℚ` (`score_samples` scores each row independently);
* Python's `round(x, n)` is embedded as decimal rounding `pyRound`
  (half-way cases, which never occur in the statements below, are rounded up
  rather than to even);
* wall-clock timing fields and logging output are omitted.
-/

/-- Mean of a list of rationals, embedding `np.mean`.  (On the empty list the
division by zero yields `0`; all uses in the code are guarded.) -/
def meanL (xs : List ℚ) : ℚ := xs.sum / xs.length

/-- Population variance, embedding the square of `np.std`. -/
def varL (xs : List ℚ) : ℚ := meanL (xs.map (fun x => (x - meanL xs) ^ 2))

/-- Rational square root used to instantiate `sqrtFn` on concrete inputs.
It is exact whenever `q.num * q.den` is a perfect square (in particular on
`0`, `1` and all squares of integers), which covers every concrete execution
in this file. -/
def ratSqrt (q : ℚ) : ℚ := (Nat.sqrt (q.num.toNat * q.den) : ℚ) / (q.den : ℚ)

/-- Embedding of Python `round(x, n)`: round to `n` decimal places. -/
def pyRound (n : ℕ) (q : ℚ) : ℚ := (⌊q * 10 ^ n + 1 / 2⌋ : ℚ) / 10 ^ n

/-- Successive differences, embedding `np.diff`. -/
def diffL (xs : List ℚ) : List ℚ := List.zipWith (fun a b => b - a) xs xs.tail

/-- Minimum of a list, embedding `ndarray.min()` (0 on the empty list, which
never occurs in the guarded code paths). -/
def minL (xs : List ℚ) : ℚ :=
  match xs with
  | [] => 0
  | x :: t => t.foldl min x

/-- Maximum of a list, embedding `ndarray.max()`. -/
def maxL (xs : List ℚ) : ℚ :=
  match xs with
  | [] => 0
  | x :: t => t.foldl max x

/-- Stable insertion of `x` into `l`: `x` is placed before the first element
`y` that is not forced to stay before it (`bef y x = false`). -/
def insBy (bef : α → α → Bool) (x : α) : List α → List α
  | [] => [x]
  | y :: ys => if bef y x then y :: insBy bef x ys else x :: y :: ys

/-- Stable insertion sort.  With `bef y x := key y < key x` it embeds a stable
ascending sort by `key`; with `bef y x := key x < key y` a stable descending
sort, which is the semantics of Python `list.sort(key=..., reverse=True)`. -/
def sortBy (bef : α → α → Bool) (l : List α) : List α := l.foldr (insBy bef) []

/-- Stable ascending sort of rational values, embedding Python `sorted` /
`np.sort` on numeric data. -/
def sortVals (xs : List ℚ) : List ℚ := sortBy (fun a b => decide (a < b)) xs

/-- Positional indexing with a default, embedding `arr[i]` (used only with
in-range indices). -/
def nthD (d : α) : List α → ℕ → α
  | [], _ => d
  | x :: _, 0 => x
  | _ :: t, n + 1 => nthD d t n

/-- Linear-interpolation percentile, embedding `np.percentile(xs, q)` with the
default `linear` method. -/
def percentileL (q : ℚ) (xs : List ℚ) : ℚ :=
  let s := sortVals xs
  let n := s.length
  if n = 0 then 0
  else
    let pos : ℚ := q / 100 * (n - 1)
    let i : ℕ := (⌊pos⌋).toNat
    let frac : ℚ := pos - (i : ℚ)
    nthD 0 s i + frac * (nthD 0 s (i + 1) - nthD 0 s i)

/-- First-occurrence deduplication, embedding iteration order of a Python
dict built by insertion. -/
def dedupF [DecidableEq α] (l : List α) : List α :=
  l.foldl (fun acc x => if x ∈ acc then acc else acc ++ [x]) []

/-- Embedding of `LogEntry` (`data_generator/normal_traffic.py`); the
`timestamp` is modelled as whole seconds on a single timeline (the CSV format
has second precision and a single implicit timezone). -/
structure LogEntry where
  timestamp : ℤ
  username : String
  department : String
  src_ip : String
  dst_ip : String
  protocol : String
  http_method : String
  url : String
  status_code : ℤ
  bytes_sent : ℤ
  bytes_received : ℤ
  action : String
  url_category : String
  threat_category : String
  risk_score : ℤ
  user_agent : String
  deriving DecidableEq

/-- Grouping key `(src_ip, domain)`. -/
abbrev GroupKey := String × String

/-- Embedding of `entry.url.split("/")[0]`: the part of the URL before the
first slash (the whole string when there is no slash, the empty string when
the URL starts with a slash — exactly Python split semantics). -/
def domainOf (url : String) : String :=
  String.mk (url.toList.takeWhile (fun c => c ≠ '/'))

/-- Embedding of `entry.url.split("/", 1)[-1]`: the part after the first
slash, or the whole string when there is no slash. -/
def pathOf (url : String) : String :=
  match url.toList.dropWhile (fun c => c ≠ '/') with
  | [] => url
  | _ :: rest => String.mk rest

/-- Hour of day of a timestamp (embedding `datetime.hour`). -/
def hourOf (t : ℤ) : ℤ := (t.ediv 3600).emod 24

/-- The `(src_ip, domain)` key of a log entry, as computed identically in
`tier1_rules.run_tier1` and `feature_engineering.extract_features`. -/
def keyOf (e : LogEntry) : GroupKey := (e.src_ip, domainOf e.url)

/-- Keys in first-occurrence order: iteration order of the `defaultdict`s
built by one pass over `logs`. -/
def keysOf (logs : List LogEntry) : List GroupKey :=
  dedupF (logs.map keyOf)

/-- The group of a key, in input order (`groups[key]` / `timestamps[key]`). -/
def groupOf (logs : List LogEntry) (k : GroupKey) : List LogEntry :=
  logs.filter (fun e => keyOf e = k)

/-- The representative record: first entry of the key (`samples[key]`). -/
def sampleOf (logs : List LogEntry) (k : GroupKey) : Option LogEntry :=
  logs.find? (fun e => keyOf e = k)

/-- Tier 1 thresholds (`tier1_rules.py`). -/
def ZSCORE_THRESHOLD : ℚ := 3

def INTERVAL_MAX_AVG_S : ℚ := 360

def INTERVAL_MAX_JITTER_S : ℚ := 10

def IQR_MAX : ℚ := 15

def MIN_REQUESTS : ℕ := 10

/-- Embedding of `Tier1Result`.  `evidence` is an insertion-ordered
association list mirroring the Python dict. -/
structure Tier1Result where
  src_ip : String
  domain : String
  username : String
  methods_fired : List String
  descriptions : List String
  severity : String
  request_count : ℕ
  evidence : List (String × ℚ)
  sample_entry : LogEntry
  deriving DecidableEq

/-- Number formatting in the narrative strings: Python `f"{x:.1f}"` and
friends are abstracted as decimal rounding followed by `toString` (the claims
never inspect the rendered text, only which values flow into it). -/
def fmtQ (n : ℕ) (q : ℚ) : String := toString (pyRound n q)

/-- Severity from the number of fired methods:
`{1: "low", 2: "high", 3: "critical"}.get(n, "critical")`. -/
def severityOf (n : ℕ) : String :=
  if n = 1 then "low" else if n = 2 then "high" else "critical"

/-- Embedding of `tier1_rules.run_tier1`, parameterised by the square-root
interpretation `sqrtFn` (see the file comment).  It mirrors the source: one
grouping pass, population z-scores over all pairs, then per key the three
methods with their evidence, keeping only keys with at least two fired
methods, sorted by number of fired methods descending (Python sort is
stable; ties keep first-occurrence key order).  `tier1_row` is the body of
the per-key loop, taking the population statistics and the key's z-score. -/
def tier1_row (sqrtFn : ℚ → ℚ) (logs : List LogEntry) (mean std z : ℚ)
    (k : GroupKey) : Option Tier1Result :=
  (sampleOf logs k).bind (fun sample =>
      let count := (groupOf logs k).length
      let ts_list := sortVals ((groupOf logs k).map (fun e => (e.timestamp : ℚ)))
      let zfired := z ≥ ZSCORE_THRESHOLD
      let m1 : List String := if zfired then ["zscore"] else []
      let d1 : List String :=
        if zfired then
          ["Request count " ++ toString count ++ " is " ++ fmtQ 1 z ++
            "σ above mean (" ++ fmtQ 1 mean ++ ")"]
        else []
      let e1 : List (String × ℚ) :=
        if zfired then
          [("zscore", pyRound 2 z), ("pop_mean", pyRound 2 mean),
            ("pop_std", pyRound 2 std)]
        else []
      let intervals := diffL ts_list
      let avg_interval := meanL intervals
      let jitter := sqrtFn (varL intervals)
      let ifired := count ≥ MIN_REQUESTS ∧
        avg_interval ≤ INTERVAL_MAX_AVG_S ∧ jitter ≤ INTERVAL_MAX_JITTER_S
      let m2 : List String := if ifired then ["interval_threshold"] else []
      let d2 : List String :=
        if ifired then
          ["Avg interval " ++ fmtQ 1 avg_interval ++ "s with jitter " ++
            fmtQ 1 jitter ++ "s — too regular for human browsing"]
        else []
      let q1 := percentileL 25 intervals
      let q3 := percentileL 75 intervals
      let iqr := q3 - q1
      let qfired := count ≥ MIN_REQUESTS ∧ iqr ≤ IQR_MAX
      let m3 : List String := if qfired then ["iqr"] else []
      let d3 : List String :=
        if qfired then
          ["Interval IQR " ++ fmtQ 1 iqr ++ "s (Q1=" ++ fmtQ 1 q1 ++
            "s Q3=" ++ fmtQ 1 q3 ++ "s) — abnormally consistent timing"]
        else []
      let e23 : List (String × ℚ) :=
        if count ≥ MIN_REQUESTS then
          [("avg_interval_s", pyRound 2 avg_interval),
            ("jitter_s", pyRound 2 jitter), ("iqr_s", pyRound 2 iqr),
            ("q1_s", pyRound 2 q1), ("q3_s", pyRound 2 q3)]
        else []
      let methods_fired := m1 ++ m2 ++ m3
      let evidence := [("request_count", (count : ℚ))] ++ e1 ++ e23
      if methods_fired.length < 2 then none
      else
        some {
          src_ip := k.1
          domain := k.2
          username := sample.username
          methods_fired := methods_fired
          descriptions := d1 ++ d2 ++ d3
          severity := severityOf methods_fired.length
          request_count := count
          evidence := evidence
          sample_entry := sample })

def run_tier1 (sqrtFn : ℚ → ℚ) (logs : List LogEntry) : List Tier1Result :=
  let keys := keysOf logs
  let values : List ℚ := keys.map (fun k => ((groupOf logs k).length : ℚ))
  let mean := meanL values
  let std := sqrtFn (varL values)
  let zscore : GroupKey → ℚ := fun k =>
    if std > 0 then (((groupOf logs k).length : ℚ) - mean) / std else 0
  sortBy (fun y x => decide (x.methods_fired.length < y.methods_fired.length))
    (keys.filterMap (fun k => tier1_row sqrtFn logs mean std (zscore k) k))

/-- Embedding of `FeatureVector` (`ml/feature_engineering.py`).  The source
fields `unique_paths_ratio` and `night_ratio` are named `unique_paths_frac`
and `night_frac` here; `FEATURE_NAMES` below keeps the exact source
strings. -/
structure FeatureVector where
  src_ip : String
  domain : String
  username : String
  avg_interval_s : ℚ
  cv : ℚ
  bytes_sent_cv : ℚ
  unique_paths_frac : ℚ
  night_frac : ℚ
  request_count : ℕ
  sample_entry : LogEntry
  deriving DecidableEq

/-- Feature column order (`FEATURE_NAMES`). -/
def FEATURE_NAMES : List String :=
  ["avg_interval_s", "cv", "bytes_sent_cv", "unique_paths_ratio",
    "night_ratio", "request_count"]

/-- Feature-extraction group minimum (30, the literal in
`extract_features`; the docstring of the source says 5 but the code uses
30). -/
def GROUP_MIN : ℕ := 30

/-- Embedding of `feature_engineering.extract_features`: group by
`(src_ip, domain)`, keep groups of at least `GROUP_MIN` entries, sort the
group by timestamp (stably), drop groups with no intervals or zero mean
interval, and build the six features (rounded to 4 decimal places). -/
def extract_features (sqrtFn : ℚ → ℚ) (logs : List LogEntry) :
    List FeatureVector :=
  (keysOf logs).filterMap (fun k =>
    (sampleOf logs k).bind (fun sample =>
      let entries := groupOf logs k
      if entries.length < GROUP_MIN then none
      else
        let sortedE := sortBy (fun y x => decide (y.timestamp < x.timestamp))
          entries
        let timestamps : List ℚ := sortedE.map (fun e => (e.timestamp : ℚ))
        let intervals := diffL timestamps
        if intervals.length = 0 ∨ meanL intervals = 0 then none
        else
          let avg_interval := meanL intervals
          let std_interval := sqrtFn (varL intervals)
          let cv := std_interval / avg_interval
          let bytes_sent : List ℚ := sortedE.map (fun e => (e.bytes_sent : ℚ))
          let mean_bytes := meanL bytes_sent
          let bytes_sent_cv :=
            if mean_bytes > 0 then sqrtFn (varL bytes_sent) / mean_bytes
            else 0
          let paths := sortedE.map (fun e => pathOf e.url)
          let upr : ℚ := (paths.dedup.length : ℚ) / (paths.length : ℚ)
          let night_count :=
            sortedE.countP (fun e =>
              decide (hourOf e.timestamp < 8 ∨ hourOf e.timestamp ≥ 20))
          let nr : ℚ := (night_count : ℚ) / (sortedE.length : ℚ)
          some {
            src_ip := k.1
            domain := k.2
            username := sample.username
            avg_interval_s := pyRound 4 avg_interval
            cv := pyRound 4 cv
            bytes_sent_cv := pyRound 4 bytes_sent_cv
            unique_paths_frac := pyRound 4 upr
            night_frac := pyRound 4 nr
            request_count := entries.length
            sample_entry := sample }))

/-- Embedding of `feature_engineering.to_matrix`: one row per vector in
`FEATURE_NAMES` column order. -/
def rowOf (v : FeatureVector) : List ℚ :=
  [v.avg_interval_s, v.cv, v.bytes_sent_cv, v.unique_paths_frac,
    v.night_frac, (v.request_count : ℚ)]

def to_matrix (vectors : List FeatureVector) : List (List ℚ) :=
  vectors.map rowOf

/-- The fitted `StandardScaler` artifact, embedded by its learned data. -/
structure Scaler where
  mean_ : List ℚ
  scale_ : List ℚ

/-- Embedding of `StandardScaler.transform` on one row:
`(x - mean_) / scale_` position-wise. -/
def transformRow (s : Scaler) (row : List ℚ) : List ℚ :=
  List.zipWith (fun x ms => (x - ms.1) / ms.2) row (s.mean_.zip s.scale_)

/-- Embedding of `StandardScaler.transform` on a matrix. -/
def transformM (s : Scaler) (X : List (List ℚ)) : List (List ℚ) :=
  X.map (transformRow s)

/-- Tier 2 confidence threshold (`tier2_ml.py`). -/
def CONFIDENCE_THRESHOLD : ℚ := 7 / 10

/-- Embedding of `Tier2Result`. -/
structure Tier2Result where
  src_ip : String
  domain : String
  username : String
  confidence : ℚ
  anomaly_score : ℚ
  feature_vector : FeatureVector
  top_features : List String
  description : String
  sample_entry : LogEntry
  deriving DecidableEq

/-- Embedding of `tier2_ml.normalize_scores`: flip the signs, then min-max
normalise; a constant batch maps to all zeros. -/
def normalize_scores (scores : List ℚ) : List ℚ :=
  let flipped := scores.map (fun s => -s)
  let min_s := minL flipped
  let max_s := maxL flipped
  if max_s = min_s then scores.map (fun _ => 0)
  else flipped.map (fun f => (f - min_s) / (max_s - min_s))

/-- Embedding of `np.argsort` on the short arrays used here (numpy sorts
arrays of fewer than 16 elements by insertion sort, which is stable):
indices of `xs` stably sorted by ascending value. -/
def argsortL (xs : List ℚ) : List ℕ :=
  sortBy (fun i j => decide (nthD 0 xs i < nthD 0 xs j))
    (List.range xs.length)

/-- The element-wise absolute scaled deviations of a feature row
(`np.abs(scaler.transform(raw)[0])` in `get_top_features`). -/
def deviationsOf (v : FeatureVector) (s : Scaler) : List ℚ :=
  (transformRow s (rowOf v)).map (fun x => |x|)

/-- Embedding of `tier2_ml.get_top_features`: scale the raw feature row,
take absolute values, and return the names of the top `n` deviations
(`np.argsort(deviations)[::-1][:n]`). -/
def get_top_features (v : FeatureVector) (s : Scaler) (n : ℕ) :
    List String :=
  let top_idx := (argsortL (deviationsOf v s)).reverse.take n
  top_idx.map (fun i => nthD ("") FEATURE_NAMES i)

/-- The per-feature explanation snippets of `run_tier2` (the
`feature_explanations` dict), keyed by feature name. -/
def explanationFor (v : FeatureVector) (f : String) : Option String :=
  if f = "cv" then
    some ("request interval CV=" ++ fmtQ 3 v.cv ++
      " (machines are unnaturally regular)")
  else if f = "avg_interval_s" then
    some ("avg interval " ++ fmtQ 1 v.avg_interval_s ++
      "s (consistent periodic pattern)")
  else if f = "bytes_sent_cv" then
    some ("payload size CV=" ++ fmtQ 3 v.bytes_sent_cv ++
      " (identical payloads per request)")
  else if f = "unique_paths_ratio" then
    some ("path diversity=" ++ fmtQ 3 v.unique_paths_frac ++
      " (hitting same endpoint repeatedly)")
  else if f = "night_ratio" then
    some ("night ratio=" ++ fmtQ 2 v.night_frac ++ " (" ++
      (if v.night_frac > 3 / 10 then "active 24/7"
        else "unusually low night activity") ++ ")")
  else if f = "request_count" then
    some ("request count=" ++ toString v.request_count ++
      " (unusually high volume)")
  else none

/-- The loop body of `run_tier2` for one `(vector, (confidence, raw score))`
triple: skip rows below `CONFIDENCE_THRESHOLD`, otherwise build the
`Tier2Result` with its top features and description. -/
def tier2_row (scaler : Scaler) (vcr : FeatureVector × ℚ × ℚ) :
    Option Tier2Result :=
  let v := vcr.1
  let confidence := vcr.2.1
  let raw := vcr.2.2
  if confidence < CONFIDENCE_THRESHOLD then none
  else
    let top_feats := get_top_features v scaler 3
    let top_explanations := top_feats.filterMap (explanationFor v)
    some {
      src_ip := v.src_ip
      domain := v.domain
      username := v.username
      confidence := pyRound 4 confidence
      anomaly_score := pyRound 4 raw
      feature_vector := v
      top_features := top_feats
      description := v.src_ip ++ " → " ++ v.domain ++
        " flagged with " ++ fmtQ 1 (confidence * 100) ++
        "% confidence. Top signals: " ++
        String.intercalate ("; ") top_explanations
      sample_entry := v.sample_entry }

/-- Embedding of `tier2_ml.run_tier2`, parameterised by the loaded model's
per-row scoring function `g` (`score_samples` scores rows independently) and
the loaded scaler.  `skip_keys` keeps list form; only membership is used.
Mirrors the source: extract features, early-return on no vectors, drop
skipped keys, scale, score, normalise to confidences, then emit results at or
above `CONFIDENCE_THRESHOLD`, sorted by confidence descending (stable). -/
def run_tier2 (g : List ℚ → ℚ) (scaler : Scaler) (logs : List LogEntry)
    (skip_keys : List GroupKey) (sqrtFn : ℚ → ℚ) : List Tier2Result :=
  let vectors0 := extract_features sqrtFn logs
  if vectors0.isEmpty then []
  else
    let vectors := vectors0.filter
      (fun v => decide ((v.src_ip, v.domain) ∉ skip_keys))
    if vectors.isEmpty then []
    else
      let X := to_matrix vectors
      let X_scaled := transformM scaler X
      let raw_scores := X_scaled.map g
      let confidences := normalize_scores raw_scores
      sortBy (fun y x => decide (x.confidence < y.confidence))
        ((vectors.zip (confidences.zip raw_scores)).filterMap
          (tier2_row scaler))

/-- The four narrative fields produced by an explainer
(`tier3_agent._mock_explanation` / `_claude_explanation`). -/
structure Explanation where
  threat_summary : String
  what_happened : String
  why_suspicious : String
  recommended_action : String
  deriving DecidableEq

/-- Embedding of `Tier3Result`. -/
structure Tier3Result where
  src_ip : String
  domain : String
  username : String
  threat_summary : String
  what_happened : String
  why_suspicious : String
  recommended_action : String
  confidence : ℚ
  severity : String
  tier1_fired : Bool
  tier2_fired : Bool
  deriving DecidableEq

/-- Embedding of `(tier1 or tier2).src_ip` etc.: prefer the Tier 1 record.
Both inputs `None` cannot occur for keys of the union; the total embedding
returns empty strings there. -/
def pickIdent (t1 : Option Tier1Result) (t2 : Option Tier2Result) :
    String × String × String :=
  match t1, t2 with
  | some r, _ => (r.src_ip, r.domain, r.username)
  | none, some r => (r.src_ip, r.domain, r.username)
  | none, none => ("", "", "")

/-- Embedding of `tier3_agent._mock_explanation`: the deterministic
rule-template explainer (number formatting abstracted as in `fmtQ`). -/
def mock_explanation (t1 : Option Tier1Result) (t2 : Option Tier2Result) :
    Explanation :=
  let ident := pickIdent t1 t2
  let src_ip := ident.1
  let domain := ident.2.1
  let username := ident.2.2
  let confidence : ℚ := match t2 with | some r => r.confidence | none => 1
  let count : ℕ := match t1 with
    | some r => r.request_count
    | none => match t2 with
      | some r => r.feature_vector.request_count
      | none => 0
  let what_why : String × String := match t1, t2 with
    | some _, some r2 =>
      let fv := r2.feature_vector
      ("Host " ++ src_ip ++ " (user: " ++ username ++ ") made " ++
        toString count ++ " requests to " ++ domain ++
        " over the observation window. Requests occurred every " ++
        fmtQ 0 fv.avg_interval_s ++ " seconds on average with " ++
        fmtQ 0 (fv.night_frac * 100) ++
        "% of activity outside business hours. The same endpoint was " ++
        "contacted repeatedly with nearly identical " ++
        fmtQ 3 fv.bytes_sent_cv ++ " payload variance.",
        "The request interval coefficient of variation (CV=" ++
        fmtQ 3 fv.cv ++ ") is near zero — human browsing typically has " ++
        "CV above 1.0. This level of timing precision indicates automated " ++
        "software, not human activity. Combined with " ++
        fmtQ 0 (fv.night_frac * 100) ++
        "% off-hours activity and path diversity of only " ++
        fmtQ 4 fv.unique_paths_frac ++
        ", this pattern is consistent with C2 beaconing malware.")
    | some r1, none =>
      ("Host " ++ src_ip ++ " (user: " ++ username ++ ") made " ++
        toString count ++ " requests to " ++ domain ++
        ". Rule-based detection fired on: " ++
        String.intercalate (", ") r1.methods_fired ++ ".",
        "Multiple detection rules fired simultaneously: " ++
        String.intercalate ("; ") (r1.descriptions.take 2) ++
        ". This volume and regularity is inconsistent with normal user " ++
        "behavior.")
    | none, some r2 =>
      let fv := r2.feature_vector
      ("Host " ++ src_ip ++ " (user: " ++ username ++ ") made " ++
        toString count ++ " requests to " ++ domain ++
        " with unusual statistical properties. ML anomaly detection " ++
        "scored this " ++ fmtQ 0 (confidence * 100) ++ "% confidence.",
        "Isolation Forest detected deviation from normal baseline. " ++
        "Key signals: " ++ String.intercalate (", ") r2.top_features ++
        ". Request timing CV=" ++ fmtQ 3 fv.cv ++
        " and path diversity " ++ fmtQ 4 fv.unique_paths_frac ++
        " are atypical for legitimate traffic.")
    | none, none => ("", "")
  let act : String :=
    if confidence ≥ 9 / 10 then
      "1. Immediately isolate host " ++ src_ip ++ " from the network. " ++
      "2. Block domain " ++ domain ++ " at the firewall. " ++
      "3. Suspend account " ++ username ++ " pending investigation. " ++
      "4. Escalate to Tier 2 for forensic analysis."
    else if confidence ≥ 7 / 10 then
      "1. Block outbound traffic to " ++ domain ++ " at the proxy. " ++
      "2. Review recent activity for " ++ username ++
      " in the last 24 hours. 3. Run endpoint scan on " ++ src_ip ++
      ". 4. Monitor for continued beaconing attempts."
    else
      "1. Add " ++ domain ++ " to watchlist for continued monitoring. " ++
      "2. Review " ++ username ++
      " recent activity for other anomalies. " ++
      "3. Flag for Tier 2 review if pattern persists."
  { threat_summary := "Suspected C2 beaconing from " ++ src_ip ++ " to " ++
      domain ++ " — " ++ fmtQ 0 (confidence * 100) ++ "% confidence"
    what_happened := what_why.1
    why_suspicious := what_why.2
    recommended_action := act }

/-- The shipped explainer wiring (`USE_MOCK = True`): the rule-template
explainer, which never raises. -/
def mockOk (t1 : Option Tier1Result) (t2 : Option Tier2Result) :
    Except String Explanation :=
  Except.ok (mock_explanation t1 t2)

/-- Key of a Tier 1 result. -/
def t1Key (r : Tier1Result) : GroupKey := (r.src_ip, r.domain)

/-- Key of a Tier 2 result. -/
def t2Key (r : Tier2Result) : GroupKey := (r.src_ip, r.domain)

/-- Lookup in the map `{key(r): r for r in l}`: a Python dict comprehension
keeps the last entry for duplicate keys. -/
def lookupLast (key : α → GroupKey) (l : List α) (k : GroupKey) : Option α :=
  l.reverse.find? (fun r => key r = k)

/-- A canonical enumeration of `set(tier1_map) | set(tier2_map)`: Tier 1 keys
in result order, then new Tier 2 keys.  Python set iteration order is
implementation defined (string hashing is seeded per process), so
`run_tier3` below takes the enumeration as an explicit parameter; this is
one admissible value. -/
def unionKeys (t1s : List Tier1Result) (t2s : List Tier2Result) :
    List GroupKey :=
  dedupF (t1s.map t1Key ++ t2s.map t2Key)

/-- Embedding of `tier3_agent.run_tier3`, parameterised by the explainer
`explain_fn` (`_mock_explanation` when `USE_MOCK`, else the Claude call,
which may raise — modelled by `Except.error`) and by the iteration order
`keyOrder` of the key set union (see `unionKeys`).  Per key: look up both
tiers, derive confidence and severity, call the explainer; on an explainer
error the key is skipped (`except` branch only logs).  Results are sorted by
confidence descending (stable, no further tie-break).  The per-key body of
the loop is `tier3_row`. -/
def tier3_row
    (explain_fn : Option Tier1Result → Option Tier2Result →
      Except String Explanation)
    (t1s : List Tier1Result) (t2s : List Tier2Result) (k : GroupKey) :
    Option Tier3Result :=
  let t1 := lookupLast t1Key t1s k
  let t2 := lookupLast t2Key t2s k
  let ident := pickIdent t1 t2
  let confidence : ℚ := match t2 with | some r => r.confidence | none => 1
  let severity : String := match t1 with
    | some r => r.severity
    | none =>
      if confidence ≥ 9 / 10 then "critical"
      else if confidence ≥ 7 / 10 then "high" else "medium"
  match explain_fn t1 t2 with
  | Except.error _ => none
  | Except.ok ex =>
    some {
      src_ip := ident.1
      domain := ident.2.1
      username := ident.2.2
      threat_summary := ex.threat_summary
      what_happened := ex.what_happened
      why_suspicious := ex.why_suspicious
      recommended_action := ex.recommended_action
      confidence := confidence
      severity := severity
      tier1_fired := t1.isSome
      tier2_fired := t2.isSome }

def run_tier3
    (explain_fn : Option Tier1Result → Option Tier2Result →
      Except String Explanation)
    (keyOrder : List GroupKey) (t1s : List Tier1Result)
    (t2s : List Tier2Result) : List Tier3Result :=
  sortBy (fun y x => decide (x.confidence < y.confidence))
    (keyOrder.filterMap (tier3_row explain_fn t1s t2s))

/-- Embedding of `PipelineResult`; the wall-clock fields `parse_time_ms` and
`total_time_ms` are not modelled. -/
structure PipelineResult where
  total_logs : ℕ
  tier1_flagged : ℕ
  tier2_flagged : ℕ
  tier3_explained : ℕ
  anomalies : List Tier3Result
  deriving DecidableEq

/-- Embedding of `pipeline.run_pipeline` on an already parsed log list:
Tier 1, then the critical keys (all three methods fired), Tier 2 skipping
those, then Tier 3 over the key union.  The Tier 3 key enumeration uses the
canonical `unionKeys` order. -/
def run_pipeline (sqrtFn : ℚ → ℚ) (g : List ℚ → ℚ) (scaler : Scaler)
    (explain_fn : Option Tier1Result → Option Tier2Result →
      Except String Explanation)
    (logs : List LogEntry) : PipelineResult :=
  let tier1_results := run_tier1 sqrtFn logs
  let tier1_critical_keys := (tier1_results.filter
    (fun r => r.methods_fired.length = 3)).map t1Key
  let tier2_results := run_tier2 g scaler logs tier1_critical_keys sqrtFn
  let tier3_results := run_tier3 explain_fn
    (unionKeys tier1_results tier2_results) tier1_results tier2_results
  { total_logs := logs.length
    tier1_flagged := tier1_results.length
    tier2_flagged := tier2_results.length
    tier3_explained := tier3_results.length
    anomalies := tier3_results }

/-- Required CSV columns (`parser.REQUIRED_COLUMNS`). -/
def REQUIRED_COLUMNS : List String :=
  ["timestamp", "username", "department", "src_ip", "dst_ip", "protocol",
    "http_method", "url", "status_code", "bytes_sent", "bytes_received",
    "action", "url_category", "threat_category", "risk_score", "user_agent"]

/-- A CSV file as seen by `csv.DictReader`: `header = none` models a file
with no bytes at all (`reader.fieldnames is None`); otherwise the first row
is the header and `rows` are the remaining records (cell lists). -/
structure CSVFile where
  header : Option (List String)
  rows : List (List String)

/-- Embedding of `parser.parse_log_file`, parameterised by the per-row body
`rowParse header cells` (the `LogEntry(...)` construction: `strptime` plus
`int` conversions; `none` models the per-row `except: continue`).  On a file
with no bytes `reader.fieldnames` is `None` and the membership test
`c not in reader.fieldnames` raises `TypeError`; a missing required column
raises `ValueError`. -/
def parse_log_file
    (rowParse : List String → List String → Option LogEntry)
    (f : CSVFile) : Except String (List LogEntry) :=
  match f.header with
  | none =>
    Except.error "TypeError: argument of type NoneType is not iterable"
  | some cols =>
    let missing := REQUIRED_COLUMNS.filter (fun c => decide (c ∉ cols))
    if missing.isEmpty then
      Except.ok (f.rows.filterMap (rowParse cols))
    else
      Except.error "ValueError: Missing required columns"

/-- A log entry template for concrete executions. -/
def wEntry (ts : ℤ) (user ip url : String) : LogEntry :=
  { timestamp := ts, username := user, department := "eng", src_ip := ip,
    dst_ip := "0.0.0.0", protocol := "https", http_method := "GET",
    url := url, status_code := 200, bytes_sent := 100, bytes_received := 100,
    action := "allowed", url_category := "web", threat_category := "none",
    risk_score := 0, user_agent := "ua" }

/-- Twelve requests from one host to one domain, every 300 seconds; only the
first request is made under the account `alice`.  Tier 1 fires the
interval-threshold and IQR methods for this group and no z-score (a single
key has population standard deviation 0). -/
def logsA : List LogEntry :=
  [wEntry 0 ("alice") ("10.0.0.5") ("evil.c2/a"),
   wEntry 300 ("bob") ("10.0.0.5") ("evil.c2/a"),
   wEntry 600 ("bob") ("10.0.0.5") ("evil.c2/a"),
   wEntry 900 ("bob") ("10.0.0.5") ("evil.c2/a"),
   wEntry 1200 ("bob") ("10.0.0.5") ("evil.c2/a"),
   wEntry 1500 ("bob") ("10.0.0.5") ("evil.c2/a"),
   wEntry 1800 ("bob") ("10.0.0.5") ("evil.c2/a"),
   wEntry 2100 ("bob") ("10.0.0.5") ("evil.c2/a"),
   wEntry 2400 ("bob") ("10.0.0.5") ("evil.c2/a"),
   wEntry 2700 ("bob") ("10.0.0.5") ("evil.c2/a"),
   wEntry 3000 ("bob") ("10.0.0.5") ("evil.c2/a"),
   wEntry 3300 ("bob") ("10.0.0.5") ("evil.c2/a")]

/-- A row parser that rejects every row (the claims about `parse_log_file`
concern empty inputs, where the row parser is never consulted). -/
def rejectRow : List String → List String → Option LogEntry := fun _ _ => none

/-- A Tier 1 finding for key `("10.0.0.1", "a.com")` used as concrete input
to `run_tier3` (the Tier 3 claims quantify over arbitrary result lists). -/
def resA : Tier1Result :=
  { src_ip := "10.0.0.1", domain := "a.com", username := "u1",
    methods_fired := ["interval_threshold", "iqr"], descriptions := [],
    severity := "high", request_count := 12, evidence := [],
    sample_entry := wEntry 0 ("u1") ("10.0.0.1") ("a.com/x") }

/-- A Tier 1 finding for key `("10.0.0.2", "b.com")`. -/
def resB : Tier1Result :=
  { src_ip := "10.0.0.2", domain := "b.com", username := "u2",
    methods_fired := ["interval_threshold", "iqr"], descriptions := [],
    severity := "high", request_count := 12, evidence := [],
    sample_entry := wEntry 0 ("u2") ("10.0.0.2") ("b.com/x") }

/-- An explainer that always succeeds with empty narrative fields, used to
instantiate theorems that hold for every non-raising explainer. -/
def okBlank : Option Tier1Result → Option Tier2Result →
    Except String Explanation :=
  fun _ _ => Except.ok ⟨"", "", "", ""⟩

/-- An explainer that raises on every input (the LLM path failing). -/
def failExplain : Option Tier1Result → Option Tier2Result →
    Except String Explanation :=
  fun _ _ => Except.error "API error"

/-- The trivial scaler: training mean 0 and scale 1 for each feature, so a
scaled row equals the raw row. -/
def scalerU : Scaler :=
  { mean_ := [0, 0, 0, 0, 0, 0], scale_ := [1, 1, 1, 1, 1, 1] }

/-- A feature vector whose six numeric features are all 1. -/
def vecU : FeatureVector :=
  { src_ip := "10.0.0.5", domain := "evil.c2", username := "alice",
    avg_interval_s := 1, cv := 1, bytes_sent_cv := 1,
    unique_paths_frac := 1, night_frac := 1, request_count := 1,
    sample_entry := wEntry 0 ("alice") ("10.0.0.5") ("evil.c2/a") }

/-- Thirty requests every 10 seconds from one host (`carol`). -/
def logs30 : List LogEntry :=
  [wEntry 0 ("carol") ("10.0.0.7") ("beacon.c2/b"),
   wEntry 10 ("carol") ("10.0.0.7") ("beacon.c2/b"),
   wEntry 20 ("carol") ("10.0.0.7") ("beacon.c2/b"),
   wEntry 30 ("carol") ("10.0.0.7") ("beacon.c2/b"),
   wEntry 40 ("carol") ("10.0.0.7") ("beacon.c2/b"),
   wEntry 50 ("carol") ("10.0.0.7") ("beacon.c2/b"),
   wEntry 60 ("carol") ("10.0.0.7") ("beacon.c2/b"),
   wEntry 70 ("carol") ("10.0.0.7") ("beacon.c2/b"),
   wEntry 80 ("carol") ("10.0.0.7") ("beacon.c2/b"),
   wEntry 90 ("carol") ("10.0.0.7") ("beacon.c2/b"),
   wEntry 100 ("carol") ("10.0.0.7") ("beacon.c2/b"),
   wEntry 110 ("carol") ("10.0.0.7") ("beacon.c2/b"),
   wEntry 120 ("carol") ("10.0.0.7") ("beacon.c2/b"),
   wEntry 130 ("carol") ("10.0.0.7") ("beacon.c2/b"),
   wEntry 140 ("carol") ("10.0.0.7") ("beacon.c2/b"),
   wEntry 150 ("carol") ("10.0.0.7") ("beacon.c2/b"),
   wEntry 160 ("carol") ("10.0.0.7") ("beacon.c2/b"),
   wEntry 170 ("carol") ("10.0.0.7") ("beacon.c2/b"),
   wEntry 180 ("carol") ("10.0.0.7") ("beacon.c2/b"),
   wEntry 190 ("carol") ("10.0.0.7") ("beacon.c2/b"),
   wEntry 200 ("carol") ("10.0.0.7") ("beacon.c2/b"),
   wEntry 210 ("carol") ("10.0.0.7") ("beacon.c2/b"),
   wEntry 220 ("carol") ("10.0.0.7") ("beacon.c2/b"),
   wEntry 230 ("carol") ("10.0.0.7") ("beacon.c2/b"),
   wEntry 240 ("carol") ("10.0.0.7") ("beacon.c2/b"),
   wEntry 250 ("carol") ("10.0.0.7") ("beacon.c2/b"),
   wEntry 260 ("carol") ("10.0.0.7") ("beacon.c2/b"),
   wEntry 270 ("carol") ("10.0.0.7") ("beacon.c2/b"),
   wEntry 280 ("carol") ("10.0.0.7") ("beacon.c2/b"),
   wEntry 290 ("carol") ("10.0.0.7") ("beacon.c2/b")]

def logs30b : List LogEntry :=
  [wEntry 0 ("dave") ("10.0.0.8") ("beacon.c2/b"),
   wEntry 20 ("dave") ("10.0.0.8") ("beacon.c2/b"),
   wEntry 40 ("dave") ("10.0.0.8") ("beacon.c2/b"),
   wEntry 60 ("dave") ("10.0.0.8") ("beacon.c2/b"),
   wEntry 80 ("dave") ("10.0.0.8") ("beacon.c2/b"),
   wEntry 100 ("dave") ("10.0.0.8") ("beacon.c2/b"),
   wEntry 120 ("dave") ("10.0.0.8") ("beacon.c2/b"),
   wEntry 140 ("dave") ("10.0.0.8") ("beacon.c2/b"),
   wEntry 160 ("dave") ("10.0.0.8") ("beacon.c2/b"),
   wEntry 180 ("dave") ("10.0.0.8") ("beacon.c2/b"),
   wEntry 200 ("dave") ("10.0.0.8") ("beacon.c2/b"),
   wEntry 220 ("dave") ("10.0.0.8") ("beacon.c2/b"),
   wEntry 240 ("dave") ("10.0.0.8") ("beacon.c2/b"),
   wEntry 260 ("dave") ("10.0.0.8") ("beacon.c2/b"),
   wEntry 280 ("dave") ("10.0.0.8") ("beacon.c2/b"),
   wEntry 300 ("dave") ("10.0.0.8") ("beacon.c2/b"),
   wEntry 320 ("dave") ("10.0.0.8") ("beacon.c2/b"),
   wEntry 340 ("dave") ("10.0.0.8") ("beacon.c2/b"),
   wEntry 360 ("dave") ("10.0.0.8") ("beacon.c2/b"),
   wEntry 380 ("dave") ("10.0.0.8") ("beacon.c2/b"),
   wEntry 400 ("dave") ("10.0.0.8") ("beacon.c2/b"),
   wEntry 420 ("dave") ("10.0.0.8") ("beacon.c2/b"),
   wEntry 440 ("dave") ("10.0.0.8") ("beacon.c2/b"),
   wEntry 460 ("dave") ("10.0.0.8") ("beacon.c2/b"),
   wEntry 480 ("dave") ("10.0.0.8") ("beacon.c2/b"),
   wEntry 500 ("dave") ("10.0.0.8") ("beacon.c2/b"),
   wEntry 520 ("dave") ("10.0.0.8") ("beacon.c2/b"),
   wEntry 540 ("dave") ("10.0.0.8") ("beacon.c2/b"),
   wEntry 560 ("dave") ("10.0.0.8") ("beacon.c2/b"),
   wEntry 580 ("dave") ("10.0.0.8") ("beacon.c2/b")]

def logs60 : List LogEntry := logs30 ++ logs30b

def gW : List ℚ → ℚ := fun row => -(row.headD 0)

def v60a : FeatureVector :=
  { src_ip := "10.0.0.7", domain := "beacon.c2", username := "carol",
    avg_interval_s := 10, cv := 0, bytes_sent_cv := 0,
    unique_paths_frac := 333/10000, night_frac := 1, request_count := 30,
    sample_entry := wEntry 0 ("carol") ("10.0.0.7") ("beacon.c2/b") }

def v60b : FeatureVector :=
  { src_ip := "10.0.0.8", domain := "beacon.c2", username := "dave",
    avg_interval_s := 20, cv := 0, bytes_sent_cv := 0,
    unique_paths_frac := 333/10000, night_frac := 1, request_count := 30,
    sample_entry := wEntry 0 ("dave") ("10.0.0.8") ("beacon.c2/b") }

/-- The mean inter-arrival interval of the (timestamp-sorted) group of a
key, the divisor of the `cv` computation in `extract_features`. -/
def meanIntervalOf (logs : List LogEntry) (k : GroupKey) : ℚ :=
  meanL (diffL ((sortBy (fun y x => decide (y.timestamp < x.timestamp))
    (groupOf logs k)).map (fun e => (e.timestamp : ℚ))))

/-- A blank record, used to neutralise order-dependent representative-record
fields when comparing pipeline runs on permuted inputs. -/
def blankEntry : LogEntry :=
  { timestamp := 0, username := "", department := "", src_ip := "",
    dst_ip := "", protocol := "", http_method := "", url := "",
    status_code := 0, bytes_sent := 0, bytes_received := 0, action := "",
    url_category := "", threat_category := "", risk_score := 0,
    user_agent := "" }

/-- Neutralise the representative-record fields of a Tier 1 finding (the
`username` and `sample_entry` of `samples[key]`, the only input-order
dependent fields). -/
def stripT1 (r : Tier1Result) : Tier1Result :=
  { r with username := "", sample_entry := blankEntry }

/-- Neutralise the representative-record fields of a feature vector. -/
def stripFV (v : FeatureVector) : FeatureVector :=
  { v with username := "", sample_entry := blankEntry }

/-- Neutralise the representative-record derived fields of a Tier 2
finding. -/
def stripT2 (r : Tier2Result) : Tier2Result :=
  { r with
      username := ""
      feature_vector := stripFV r.feature_vector
      sample_entry := blankEntry }

/-- Neutralise the representative-record derived fields of a Tier 3 result:
the username and the four narrative texts (which may quote it). -/
def stripT3 (r : Tier3Result) : Tier3Result :=
  { r with
      username := ""
      threat_summary := ""
      what_happened := ""
      why_suspicious := ""
      recommended_action := "" }

/-- The Tier 1 loop body as a function of the order-invariant data of a
group: its size `cnt`, its sorted timestamp list `tsl` and whether the key
occurs (`smp`), with the representative-record fields blanked. -/
def t1F (sqrtFn : ℚ → ℚ) (mean std z : ℚ) (k : GroupKey) (cnt : ℕ)
    (tsl : List ℚ) (smp : Bool) : Option Tier1Result :=
  if smp then
    let count := cnt
    let ts_list := tsl
    let zfired := z ≥ ZSCORE_THRESHOLD
    let m1 : List String := if zfired then ["zscore"] else []
    let d1 : List String :=
      if zfired then
        ["Request count " ++ toString count ++ " is " ++ fmtQ 1 z ++
          "σ above mean (" ++ fmtQ 1 mean ++ ")"]
      else []
    let e1 : List (String × ℚ) :=
      if zfired then
        [("zscore", pyRound 2 z), ("pop_mean", pyRound 2 mean),
          ("pop_std", pyRound 2 std)]
      else []
    let intervals := diffL ts_list
    let avg_interval := meanL intervals
    let jitter := sqrtFn (varL intervals)
    let ifired := count ≥ MIN_REQUESTS ∧
      avg_interval ≤ INTERVAL_MAX_AVG_S ∧ jitter ≤ INTERVAL_MAX_JITTER_S
    let m2 : List String := if ifired then ["interval_threshold"] else []
    let d2 : List String :=
      if ifired then
        ["Avg interval " ++ fmtQ 1 avg_interval ++ "s with jitter " ++
          fmtQ 1 jitter ++ "s — too regular for human browsing"]
      else []
    let q1 := percentileL 25 intervals
    let q3 := percentileL 75 intervals
    let iqr := q3 - q1
    let qfired := count ≥ MIN_REQUESTS ∧ iqr ≤ IQR_MAX
    let m3 : List String := if qfired then ["iqr"] else []
    let d3 : List String :=
      if qfired then
        ["Interval IQR " ++ fmtQ 1 iqr ++ "s (Q1=" ++ fmtQ 1 q1 ++
          "s Q3=" ++ fmtQ 1 q3 ++ "s) — abnormally consistent timing"]
      else []
    let e23 : List (String × ℚ) :=
      if count ≥ MIN_REQUESTS then
        [("avg_interval_s", pyRound 2 avg_interval),
          ("jitter_s", pyRound 2 jitter), ("iqr_s", pyRound 2 iqr),
          ("q1_s", pyRound 2 q1), ("q3_s", pyRound 2 q3)]
      else []
    let methods_fired := m1 ++ m2 ++ m3
    let evidence := [("request_count", (count : ℚ))] ++ e1 ++ e23
    if methods_fired.length < 2 then none
    else
      some {
        src_ip := k.1
        domain := k.2
        username := ""
        methods_fired := methods_fired
        descriptions := d1 ++ d2 ++ d3
        severity := severityOf methods_fired.length
        request_count := count
        evidence := evidence
        sample_entry := blankEntry }
  else none

/-- The per-key request counts of `run_tier1` (its `values` array). -/
def t1vals (logs : List LogEntry) : List ℚ :=
  (keysOf logs).map (fun k => ((groupOf logs k).length : ℚ))

def t1mean (logs : List LogEntry) : ℚ := meanL (t1vals logs)

def t1std (sqrtFn : ℚ → ℚ) (logs : List LogEntry) : ℚ :=
  sqrtFn (varL (t1vals logs))

def t1z (sqrtFn : ℚ → ℚ) (logs : List LogEntry) (k : GroupKey) : ℚ :=
  if t1std sqrtFn logs > 0 then
    (((groupOf logs k).length : ℚ) - t1mean logs) / t1std sqrtFn logs
  else 0

/-- The feature-extraction loop body as a function of the order-invariant
data of a group: size, sorted timestamps, byte statistics, path counts and
night count, with the representative-record fields blanked. -/
def fxF (sqrtFn : ℚ → ℚ) (k : GroupKey) (cnt : ℕ) (tsl : List ℚ)
    (bmean bvar : ℚ) (pdl plen nightCnt seLen : ℕ) (smp : Bool) :
    Option FeatureVector :=
  if smp then
    if cnt < GROUP_MIN then none
    else
      let intervals := diffL tsl
      if intervals.length = 0 ∨ meanL intervals = 0 then none
      else
        let avg_interval := meanL intervals
        let std_interval := sqrtFn (varL intervals)
        let cv := std_interval / avg_interval
        let bytes_sent_cv :=
          if bmean > 0 then sqrtFn bvar / bmean
          else 0
        let upr : ℚ := (pdl : ℚ) / (plen : ℚ)
        let nr : ℚ := (nightCnt : ℚ) / (seLen : ℚ)
        some {
          src_ip := k.1
          domain := k.2
          username := ""
          avg_interval_s := pyRound 4 avg_interval
          cv := pyRound 4 cv
          bytes_sent_cv := pyRound 4 bytes_sent_cv
          unique_paths_frac := pyRound 4 upr
          night_frac := pyRound 4 nr
          request_count := cnt
          sample_entry := blankEntry }
  else none

/-- The raw isolation-forest score of one vector: scale its feature row and
apply the per-row scorer. -/
def rawOf (g : List ℚ → ℚ) (scaler : Scaler) (v : FeatureVector) : ℚ :=
  g (transformRow scaler (rowOf v))

/-- The per-element normalisation of `normalize_scores`, given the min and
max of the sign-flipped score batch. -/
def confOf (mn mx : ℚ) (s : ℚ) : ℚ :=
  if mx = mn then 0 else (-s - mn) / (mx - mn)

/-- The vectors surviving the skip filter (`run_tier2`'s `vectors`). -/
def vecsOf (sqrtFn : ℚ → ℚ) (logs : List LogEntry)
    (skip_keys : List GroupKey) : List FeatureVector :=
  (extract_features sqrtFn logs).filter
    (fun v => decide ((v.src_ip, v.domain) ∉ skip_keys))

/-- The raw score batch of `run_tier2`. -/
def rawsOf (g : List ℚ → ℚ) (scaler : Scaler) (sqrtFn : ℚ → ℚ)
    (logs : List LogEntry) (skip_keys : List GroupKey) : List ℚ :=
  (vecsOf sqrtFn logs skip_keys).map (rawOf g scaler)

def mnOf (g : List ℚ → ℚ) (scaler : Scaler) (sqrtFn : ℚ → ℚ)
    (logs : List LogEntry) (skip_keys : List GroupKey) : ℚ :=
  minL ((rawsOf g scaler sqrtFn logs skip_keys).map (fun s => -s))

def mxOf (g : List ℚ → ℚ) (scaler : Scaler) (sqrtFn : ℚ → ℚ)
    (logs : List LogEntry) (skip_keys : List GroupKey) : ℚ :=
  maxL ((rawsOf g scaler sqrtFn logs skip_keys).map (fun s => -s))

/-- The stripped Tier 2 loop body as a function of a stripped vector, given
the batch minimum and maximum. -/
def t2F (g : List ℚ → ℚ) (scaler : Scaler) (mn mx : ℚ)
    (w : FeatureVector) : Option Tier2Result :=
  (tier2_row scaler
    (w, confOf mn mx (rawOf g scaler w), rawOf g scaler w)).map stripT2

/-- The stripped Tier 3 loop body as a function of the stripped per-key
lookups: identity, confidence and severity derivation with blank username
and narratives (under an explainer that always succeeds the explanation
text is the only output of `explain_fn`, and it is stripped). -/
def t3F (o1 : Option Tier1Result) (o2 : Option Tier2Result) :
    Option Tier3Result :=
  let ident := pickIdent o1 o2
  let confidence : ℚ := match o2 with
    | some r => r.confidence
    | none => 1
  let severity : String := match o1 with
    | some r => r.severity
    | none =>
      if confidence ≥ 9 / 10 then "critical"
      else if confidence ≥ 7 / 10 then "high" else "medium"
  some {
    src_ip := ident.1
    domain := ident.2.1
    username := ""
    threat_summary := ""
    what_happened := ""
    why_suspicious := ""
    recommended_action := ""
    confidence := confidence
    severity := severity
    tier1_fired := o1.isSome
    tier2_fired := o2.isSome }

/-- `logsA` in reverse order: a permutation whose first group record has
username `bob` instead of `alice`. -/
def logsArev : List LogEntry :=
  [wEntry 3300 ("bob") ("10.0.0.5") ("evil.c2/a"),
   wEntry 3000 ("bob") ("10.0.0.5") ("evil.c2/a"),
   wEntry 2700 ("bob") ("10.0.0.5") ("evil.c2/a"),
   wEntry 2400 ("bob") ("10.0.0.5") ("evil.c2/a"),
   wEntry 2100 ("bob") ("10.0.0.5") ("evil.c2/a"),
   wEntry 1800 ("bob") ("10.0.0.5") ("evil.c2/a"),
   wEntry 1500 ("bob") ("10.0.0.5") ("evil.c2/a"),
   wEntry 1200 ("bob") ("10.0.0.5") ("evil.c2/a"),
   wEntry 900 ("bob") ("10.0.0.5") ("evil.c2/a"),
   wEntry 600 ("bob") ("10.0.0.5") ("evil.c2/a"),
   wEntry 300 ("bob") ("10.0.0.5") ("evil.c2/a"),
   wEntry 0 ("alice") ("10.0.0.5") ("evil.c2/a")]

theorem insBy_perm (bef : α → α → Bool) (x : α) (l : List α) :
    List.Perm (insBy bef x l) (x :: l) := by
  induction l with
  | nil => simp [insBy]
  | cons y ys ih =>
    simp only [insBy]
    by_cases h : bef y x = true
    · simp only [h, if_true]
      exact (ih.cons y).trans (List.Perm.swap x y ys)
    · simp [h]

theorem sortBy_perm (bef : α → α → Bool) (l : List α) :
    List.Perm (sortBy bef l) l := by
  induction l with
  | nil => simp [sortBy]
  | cons x xs ih =>
    simpa [sortBy] using (insBy_perm bef x (sortBy bef xs)).trans (ih.cons x)

theorem mem_insBy {bef : α → α → Bool} {x z : α} {l : List α} :
    z ∈ insBy bef x l ↔ z = x ∨ z ∈ l :=
  by simpa using (insBy_perm bef x l).mem_iff

theorem insBy_pairwise {bef : α → α → Bool}
    (h1 : ∀ a b, bef a b = true → bef b a = false)
    (h2 : ∀ a b c, bef c b = false → bef b a = false → bef c a = false)
    (x : α) (l : List α) (hl : l.Pairwise (fun a b => bef b a = false)) :
    (insBy bef x l).Pairwise (fun a b => bef b a = false) := by
  induction l with
  | nil => simp [insBy]
  | cons y ys ih =>
    rcases List.pairwise_cons.mp hl with ⟨hy, hys⟩
    simp only [insBy]
    by_cases h : bef y x = true
    · simp only [h, if_true]
      refine List.pairwise_cons.mpr ⟨?_, ih hys⟩
      intro z hz
      rcases mem_insBy.mp hz with rfl | hz
      · exact h1 _ _ h
      · exact hy z hz
    · have hf : bef y x = false := by
        cases hb : bef y x
        · rfl
        · exact absurd hb h
      simp only [h, if_false]
      refine List.pairwise_cons.mpr ⟨?_, hl⟩
      intro z hz
      rcases List.mem_cons.mp hz with rfl | hz
      · exact hf
      · exact h2 _ _ _ (hy z hz) hf

theorem sortBy_pairwise {bef : α → α → Bool}
    (h1 : ∀ a b, bef a b = true → bef b a = false)
    (h2 : ∀ a b c, bef c b = false → bef b a = false → bef c a = false)
    (l : List α) :
    (sortBy bef l).Pairwise (fun a b => bef b a = false) := by
  induction l with
  | nil => simp [sortBy]
  | cons x xs ih => exact insBy_pairwise h1 h2 x _ ih

theorem foldl_min_le_init (b : ℚ) (l : List ℚ) : l.foldl min b ≤ b := by
  induction l generalizing b with
  | nil => simp
  | cons c t ih => exact le_trans (ih (min b c)) (min_le_left _ _)

theorem foldl_min_le_mem (b : ℚ) {x : ℚ} {l : List ℚ} (hx : x ∈ l) :
    l.foldl min b ≤ x := by
  induction l generalizing b with
  | nil => cases hx
  | cons c t ih =>
    simp only [List.foldl_cons]
    rcases List.mem_cons.mp hx with rfl | hx
    · exact le_trans (foldl_min_le_init _ _) (min_le_right _ _)
    · exact ih _ hx

theorem foldl_min_mem (b : ℚ) (l : List ℚ) :
    l.foldl min b = b ∨ l.foldl min b ∈ l := by
  induction l generalizing b with
  | nil => simp
  | cons c t ih =>
    rcases ih (min b c) with h | h
    · rw [List.foldl_cons, h]
      rcases le_total b c with hbc | hbc
      · rw [min_eq_left hbc]
        exact Or.inl rfl
      · rw [min_eq_right hbc]
        exact Or.inr (List.mem_cons_self _ _)
    · rw [List.foldl_cons]
      exact Or.inr (List.mem_cons_of_mem _ h)

theorem minL_le {xs : List ℚ} {x : ℚ} (hx : x ∈ xs) : minL xs ≤ x := by
  match xs with
  | y :: t =>
    simp only [minL]
    rcases List.mem_cons.mp hx with rfl | hx
    · exact foldl_min_le_init _ _
    · exact foldl_min_le_mem _ hx

theorem minL_mem {xs : List ℚ} (hxs : xs ≠ []) : minL xs ∈ xs := by
  match xs with
  | y :: t =>
    simp only [minL]
    rcases foldl_min_mem y t with h | h
    · simp [h]
    · exact List.mem_cons_of_mem _ h

theorem foldl_max_init_le (b : ℚ) (l : List ℚ) : b ≤ l.foldl max b := by
  induction l generalizing b with
  | nil => simp
  | cons c t ih => exact le_trans (le_max_left _ _) (ih (max b c))

theorem foldl_max_mem_le (b : ℚ) {x : ℚ} {l : List ℚ} (hx : x ∈ l) :
    x ≤ l.foldl max b := by
  induction l generalizing b with
  | nil => cases hx
  | cons c t ih =>
    simp only [List.foldl_cons]
    rcases List.mem_cons.mp hx with rfl | hx
    · exact le_trans (le_max_right _ _) (foldl_max_init_le _ _)
    · exact ih _ hx

theorem foldl_max_mem (b : ℚ) (l : List ℚ) :
    l.foldl max b = b ∨ l.foldl max b ∈ l := by
  induction l generalizing b with
  | nil => simp
  | cons c t ih =>
    rcases ih (max b c) with h | h
    · rw [List.foldl_cons, h]
      rcases le_total b c with hbc | hbc
      · rw [max_eq_right hbc]
        exact Or.inr (List.mem_cons_self _ _)
      · rw [max_eq_left hbc]
        exact Or.inl rfl
    · rw [List.foldl_cons]
      exact Or.inr (List.mem_cons_of_mem _ h)

theorem maxL_le {xs : List ℚ} {x : ℚ} (hx : x ∈ xs) : x ≤ maxL xs := by
  match xs with
  | y :: t =>
    simp only [maxL]
    rcases List.mem_cons.mp hx with rfl | hx
    · exact foldl_max_init_le _ _
    · exact foldl_max_mem_le _ hx

theorem maxL_mem {xs : List ℚ} (hxs : xs ≠ []) : maxL xs ∈ xs := by
  match xs with
  | y :: t =>
    simp only [maxL]
    rcases foldl_max_mem y t with h | h
    · simp [h]
    · exact List.mem_cons_of_mem _ h

theorem sortBy_desc_pairwise {β : Type} [LinearOrder β] (f : α → β)
    (l : List α) :
    (sortBy (fun y x => decide (f x < f y)) l).Pairwise
      (fun a b => f b ≤ f a) := by
  have h := @sortBy_pairwise _ (fun y x => decide (f x < f y))
    (fun a b hab => by
      simp only [decide_eq_true_eq] at hab
      simpa using le_of_lt hab)
    (fun a b c hcb hba => by
      simp only [decide_eq_false_iff_not, not_lt] at hcb hba ⊢
      exact le_trans hcb hba) l
  exact h.imp (fun hab => by simpa [not_lt] using hab)

theorem dedupF_go_nodup [DecidableEq α] (l : List α) :
    ∀ acc : List α, acc.Nodup →
      (l.foldl (fun acc x => if x ∈ acc then acc else acc ++ [x]) acc).Nodup := by
  induction l with
  | nil => intro acc h; exact h
  | cons x t ih =>
    intro acc h
    simp only [List.foldl_cons]
    by_cases hx : x ∈ acc
    · simpa [hx] using ih acc h
    · have : (acc ++ [x]).Nodup := by
        simp [List.nodup_append, h, hx]
      simpa [hx] using ih _ this

theorem dedupF_nodup [DecidableEq α] (l : List α) : (dedupF l).Nodup :=
  dedupF_go_nodup l [] List.nodup_nil

theorem dedupF_go_mem [DecidableEq α] (l : List α) :
    ∀ acc : List α, ∀ z,
      (z ∈ l.foldl (fun acc x => if x ∈ acc then acc else acc ++ [x]) acc ↔
        z ∈ acc ∨ z ∈ l) := by
  induction l with
  | nil => intro acc z; simp
  | cons x t ih =>
    intro acc z
    simp only [List.foldl_cons]
    by_cases hx : x ∈ acc
    · simp only [hx, if_true]
      rw [ih acc z]
      constructor
      · rintro (h | h)
        · exact Or.inl h
        · exact Or.inr (List.mem_cons_of_mem _ h)
      · rintro (h | h)
        · exact Or.inl h
        · rcases List.mem_cons.mp h with rfl | h
          · exact Or.inl hx
          · exact Or.inr h
    · simp only [hx, if_false]
      rw [ih (acc ++ [x]) z]
      simp only [List.mem_append, List.mem_singleton, List.mem_cons]
      tauto

theorem mem_dedupF [DecidableEq α] {l : List α} {z : α} :
    z ∈ dedupF l ↔ z ∈ l := by
  rw [dedupF, dedupF_go_mem l [] z]
  simp

theorem lookupLast_eq_some {key : α → GroupKey} {l : List α} {k : GroupKey}
    {r : α} (h : lookupLast key l k = some r) : r ∈ l ∧ key r = k := by
  unfold lookupLast at h
  refine ⟨?_, ?_⟩
  · have := List.mem_of_find?_eq_some h
    exact List.mem_reverse.mp this
  · have := List.find?_some h
    simpa using this

theorem lookupLast_isSome {key : α → GroupKey} {l : List α} {k : GroupKey} :
    (lookupLast key l k).isSome ↔ k ∈ l.map key := by
  unfold lookupLast
  rw [List.find?_isSome]
  constructor
  · rintro ⟨x, hx, hk⟩
    simp only [decide_eq_true_eq] at hk
    exact hk ▸ List.mem_map_of_mem key (List.mem_reverse.mp hx)
  · intro hk
    rcases List.mem_map.mp hk with ⟨x, hx, hk⟩
    exact ⟨x, List.mem_reverse.mpr hx, by simp [hk]⟩

theorem countP_eq_ite_of_nodup [DecidableEq α] {l : List α} (h : l.Nodup)
    (k : α) :
    l.countP (fun x => decide (x = k)) = if k ∈ l then 1 else 0 := by
  induction l with
  | nil => simp
  | cons x t ih =>
    rcases List.nodup_cons.mp h with ⟨hx, ht⟩
    by_cases hk : x = k
    · subst hk
      rw [List.countP_cons]
      simp [ih ht, hx]
    · rw [List.countP_cons]
      simp only [decide_eq_true_eq, hk, if_false, add_zero, List.mem_cons]
      rw [ih ht]
      by_cases hkt : k ∈ t
      · simp [hkt]
      · have hxk : ¬k = x := fun hh => hk hh.symm
        simp [hkt, hxk]

/-- C8, counterexample.  The claim says a CSV file with no bytes at all
yields zero records without raising an error.  In the code
`csv.DictReader(f).fieldnames` is `None` for such a file, and the check
`c not in reader.fieldnames` raises a `TypeError`, so `parse_log_file`
raises instead of returning zero records (for any row parser). -/
theorem c8_counterexample :
    parse_log_file rejectRow { header := none, rows := [] } =
      Except.error "TypeError: argument of type NoneType is not iterable" :=
  rfl

/-- C8, amended.  A CSV consisting of only a header row that contains every
required column is parsed to zero records without an error; a CSV with no
bytes at all instead raises (see the counterexample). -/
theorem c8_header_only_ok
    (rowParse : List String → List String → Option LogEntry)
    (cols : List String) (hcols : ∀ c ∈ REQUIRED_COLUMNS, c ∈ cols) :
    parse_log_file rowParse { header := some cols, rows := [] } =
      Except.ok [] := by
  have hmiss : REQUIRED_COLUMNS.filter (fun c => decide (c ∉ cols)) = [] := by
    rw [List.filter_eq_nil_iff]
    intro c hc
    simpa using hcols c hc
  rw [show parse_log_file rowParse { header := some cols, rows := [] } =
      (if (REQUIRED_COLUMNS.filter (fun c => decide (c ∉ cols))).isEmpty then
        Except.ok (List.filterMap (rowParse cols) []) else
        Except.error "ValueError: Missing required columns") from rfl, hmiss]
  rfl

/-- C8, witness: the amended theorem at the required header itself. -/
theorem c8_witness :
    parse_log_file rejectRow
      { header := some REQUIRED_COLUMNS, rows := [] } = Except.ok [] :=
  c8_header_only_ok rejectRow REQUIRED_COLUMNS (fun _ hc => hc)

/-- C3, amended.  The list returned by `run_tier3` is sorted in descending
order of confidence — for every explainer and every iteration order of the
key-set union.  Equal-confidence ties, however, keep the key iteration order
of the Python `set` union (which depends on seeded string hashing), not the
lexicographic key order, so the output order is not a function of the
findings alone (see the counterexample). -/
theorem c3_sorted_desc_confidence
    (explain_fn : Option Tier1Result → Option Tier2Result →
      Except String Explanation)
    (keyOrder : List GroupKey) (t1s : List Tier1Result)
    (t2s : List Tier2Result) :
    (run_tier3 explain_fn keyOrder t1s t2s).Pairwise
      (fun a b => b.confidence ≤ a.confidence) := by
  simp only [run_tier3]
  exact sortBy_desc_pairwise (fun r : Tier3Result => r.confidence) _

/-- C3, counterexample.  Both findings get Tier 3 confidence 1, so they tie.
Under the key iteration order `[kB, kA]` — a legitimate iteration order of
the Python key set — the output lists key `("10.0.0.2", "b.com")` before the
lexicographically smaller `("10.0.0.1", "a.com")`, and the two iteration
orders of the same two findings give different outputs, so the order is
neither key-broken nor a function of the findings alone. -/
theorem c3_counterexample :
    (run_tier3 mockOk [("10.0.0.2", "b.com"), ("10.0.0.1", "a.com")]
        [resA, resB] []).map (fun r => (r.src_ip, r.domain)) =
      [("10.0.0.2", "b.com"), ("10.0.0.1", "a.com")] ∧
    (run_tier3 mockOk [("10.0.0.2", "b.com"), ("10.0.0.1", "a.com")]
        [resA, resB] []).map Tier3Result.confidence = [1, 1] ∧
    ("10.0.0.1" < "10.0.0.2" ∧ ("a.com" : String) ≠ "b.com") ∧
    run_tier3 mockOk [("10.0.0.1", "a.com"), ("10.0.0.2", "b.com")]
        [resA, resB] [] ≠
      run_tier3 mockOk [("10.0.0.2", "b.com"), ("10.0.0.1", "a.com")]
        [resA, resB] [] := by
  have lA1 : lookupLast t1Key [resA, resB] ("10.0.0.1", "a.com") =
      some resA := rfl
  have lB1 : lookupLast t1Key [resA, resB] ("10.0.0.2", "b.com") =
      some resB := rfl
  have lA2 : lookupLast t2Key ([] : List Tier2Result) ("10.0.0.1", "a.com") =
      none := rfl
  have lB2 : lookupLast t2Key ([] : List Tier2Result) ("10.0.0.2", "b.com") =
      none := rfl
  have h1 : (run_tier3 mockOk [("10.0.0.2", "b.com"), ("10.0.0.1", "a.com")]
      [resA, resB] []).map (fun r => (r.src_ip, r.domain)) =
      [("10.0.0.2", "b.com"), ("10.0.0.1", "a.com")] := by
    simp only [run_tier3, tier3_row, List.filterMap, lA1, lB1, lA2, lB2, mockOk]
    norm_num [resA, resB, sortBy, insBy, pickIdent]
  have h2 : (run_tier3 mockOk [("10.0.0.1", "a.com"), ("10.0.0.2", "b.com")]
      [resA, resB] []).map (fun r => (r.src_ip, r.domain)) =
      [("10.0.0.1", "a.com"), ("10.0.0.2", "b.com")] := by
    simp only [run_tier3, tier3_row, List.filterMap, lA1, lB1, lA2, lB2, mockOk]
    norm_num [resA, resB, sortBy, insBy, pickIdent]
  refine ⟨h1, ?_,
    ⟨String.lt_iff_toList_lt.mpr (by decide), by decide⟩, ?_⟩
  · simp only [run_tier3, tier3_row, List.filterMap, lA1, lB1, lA2, lB2, mockOk]
    norm_num [resA, resB, sortBy, insBy, pickIdent]
  · intro h
    rw [h, h1] at h2
    simp at h2

theorem tier3_row_some_key
    (explain_fn : Option Tier1Result → Option Tier2Result →
      Except String Explanation)
    (t1s : List Tier1Result) (t2s : List Tier2Result) (k : GroupKey)
    (hok : ∀ a b, ∃ e, explain_fn a b = Except.ok e)
    (hk : k ∈ t1s.map t1Key ∨ k ∈ t2s.map t2Key) :
    ∃ r, tier3_row explain_fn t1s t2s k = some r ∧ (r.src_ip, r.domain) = k := by
  simp only [tier3_row]
  rcases hok (lookupLast t1Key t1s k) (lookupLast t2Key t2s k) with ⟨ex, hex⟩
  rw [hex]
  refine ⟨_, rfl, ?_⟩
  rcases h1 : lookupLast t1Key t1s k with _ | r1
  · have hnone : ¬(lookupLast t1Key t1s k).isSome = true := by
      rw [h1]
      simp
    have hk2 : k ∈ t2s.map t2Key := by
      rcases hk with hk | hk
      · exact absurd (lookupLast_isSome.mpr hk) hnone
      · exact hk
    rcases Option.isSome_iff_exists.mp
      (lookupLast_isSome.mpr hk2) with ⟨r2, h2⟩
    rw [h2]
    have h3 := (lookupLast_eq_some h2).2
    simp only [t2Key] at h3
    simp [pickIdent, h3]
  · have h3 := (lookupLast_eq_some h1).2
    simp only [t1Key] at h3
    simpa [pickIdent] using h3

theorem filterMap_tier3_keys
    (explain_fn : Option Tier1Result → Option Tier2Result →
      Except String Explanation)
    (t1s : List Tier1Result) (t2s : List Tier2Result)
    (hok : ∀ a b, ∃ e, explain_fn a b = Except.ok e) :
    ∀ keyOrder : List GroupKey,
      (∀ k ∈ keyOrder, k ∈ t1s.map t1Key ∨ k ∈ t2s.map t2Key) →
      (keyOrder.filterMap (tier3_row explain_fn t1s t2s)).map
        (fun r => (r.src_ip, r.domain)) = keyOrder := by
  intro keyOrder
  induction keyOrder with
  | nil => intro _; simp
  | cons k ks ih =>
    intro hsub
    rcases tier3_row_some_key explain_fn t1s t2s k hok
      (hsub k (List.mem_cons_self _ _)) with ⟨r, hr, hkey⟩
    rw [List.filterMap_cons, hr, List.map_cons, hkey,
      ih (fun k2 hk2 => hsub k2 (List.mem_cons_of_mem _ hk2))]

/-- C1, amended.  When the explainer succeeds on every input — which the
shipped rule-template explainer `mockOk` always does — `run_tier3` emits
exactly one `Tier3Result` per key of `Tier1 ∪ Tier2`, for every iteration
order of the key set.  When the explainer raises for a key, however, that
key is omitted from the output (the `except` branch only logs); the pipeline
does not fail, but there is no fallback to the rule-template explanation —
see the counterexample. -/
theorem c1_one_result_per_key
    (explain_fn : Option Tier1Result → Option Tier2Result →
      Except String Explanation)
    (keyOrder : List GroupKey) (t1s : List Tier1Result)
    (t2s : List Tier2Result)
    (hok : ∀ a b, ∃ e, explain_fn a b = Except.ok e)
    (hnd : keyOrder.Nodup)
    (hmem : ∀ k, k ∈ keyOrder ↔
      (k ∈ t1s.map t1Key ∨ k ∈ t2s.map t2Key)) :
    ∀ k, ((run_tier3 explain_fn keyOrder t1s t2s).filter
        (fun r => decide ((r.src_ip, r.domain) = k))).length =
      if k ∈ t1s.map t1Key ∨ k ∈ t2s.map t2Key then 1 else 0 := by
  intro k
  have hkeys := filterMap_tier3_keys explain_fn t1s t2s hok keyOrder
    (fun k2 hk2 => (hmem k2).mp hk2)
  rw [← List.countP_eq_length_filter]
  have hperm : List.Perm (run_tier3 explain_fn keyOrder t1s t2s)
      (keyOrder.filterMap (tier3_row explain_fn t1s t2s)) := by
    unfold run_tier3
    exact sortBy_perm _ _
  rw [hperm.countP_eq]
  have := List.countP_map (fun k2 => decide (k2 = k))
    (fun r : Tier3Result => (r.src_ip, r.domain))
    (keyOrder.filterMap (tier3_row explain_fn t1s t2s))
  rw [hkeys] at this
  rw [show (fun r : Tier3Result => decide ((r.src_ip, r.domain) = k)) =
    ((fun k2 => decide (k2 = k)) ∘ fun r : Tier3Result =>
      (r.src_ip, r.domain)) from rfl, ← this,
    countP_eq_ite_of_nodup hnd k]
  by_cases hk : k ∈ keyOrder
  · rw [if_pos hk, if_pos ((hmem k).mp hk)]
  · rw [if_neg hk, if_neg (fun hc => hk ((hmem k).mpr hc))]

/-- C1, witness: the amended theorem at a Tier 1 finding for a single key
and a total explainer. -/
theorem c1_witness :
    ((run_tier3 okBlank [("10.0.0.1", "a.com")] [resA] []).filter
        (fun r => decide ((r.src_ip, r.domain) = ("10.0.0.1", "a.com")))).length =
      if ("10.0.0.1", "a.com") ∈ [resA].map t1Key ∨
          ("10.0.0.1", "a.com") ∈ ([] : List Tier2Result).map t2Key then 1
        else 0 :=
  c1_one_result_per_key okBlank [("10.0.0.1", "a.com")] [resA] []
    (fun _ _ => ⟨_, rfl⟩) (by simp)
    (by
      intro k
      simp [t1Key, resA]) ("10.0.0.1", "a.com")

/-- C1, counterexample.  The claim asserts that on an explainer error the
rule-template explanation is used for the key instead of omitting it.  In
the code the `except` branch only logs: with an explainer that raises, the
single key of `Tier1 ∪ Tier2` produces no `Tier3Result` at all (the key is
omitted; the pipeline does not fail). -/
theorem c1_counterexample :
    run_tier3 failExplain [("10.0.0.1", "a.com")] [resA] [] = [] ∧
    unionKeys [resA] [] = [("10.0.0.1", "a.com")] := by
  constructor
  · rfl
  · rfl

theorem insBy_argsort_pairwise (dev : ℕ → ℚ) (x : ℕ) (l : List ℕ)
    (hl : l.Pairwise (fun i j =>
      dev i < dev j ∨ (dev i = dev j ∧ i < j)))
    (hx : ∀ y ∈ l, x < y) :
    (insBy (fun i j => decide (dev i < dev j)) x l).Pairwise
      (fun i j => dev i < dev j ∨ (dev i = dev j ∧ i < j)) := by
  induction l with
  | nil => simp [insBy]
  | cons y ys ih =>
    rcases List.pairwise_cons.mp hl with ⟨hy, hys⟩
    simp only [insBy]
    by_cases h : dev y < dev x
    · simp only [decide_eq_true_eq, h, if_true]
      refine List.pairwise_cons.mpr ⟨?_, ?_⟩
      · intro z hz
        rcases mem_insBy.mp hz with rfl | hz
        · exact Or.inl h
        · exact hy z hz
      · exact ih hys (fun y2 hy2 => hx y2 (List.mem_cons_of_mem _ hy2))
    · have hxy : dev x ≤ dev y := not_lt.mp h
      simp only [decide_eq_true_eq, h, if_false]
      refine List.pairwise_cons.mpr ⟨?_, hl⟩
      intro z hz
      rcases List.mem_cons.mp hz with rfl | hz
      · rcases lt_or_eq_of_le hxy with hlt | heq
        · exact Or.inl hlt
        · exact Or.inr ⟨heq, hx z (List.mem_cons_self _ _)⟩
      · rcases hy z hz with hlt | ⟨heq, _⟩
        · exact Or.inl (lt_of_le_of_lt hxy hlt)
        · rcases lt_or_eq_of_le (heq ▸ hxy) with hlt | heq2
          · exact Or.inl hlt
          · exact Or.inr ⟨heq2, hx z (List.mem_cons_of_mem _ hz)⟩

theorem sortBy_argsort_pairwise (dev : ℕ → ℚ) :
    ∀ l : List ℕ, l.Pairwise (· < ·) →
      (sortBy (fun i j => decide (dev i < dev j)) l).Pairwise
        (fun i j => dev i < dev j ∨ (dev i = dev j ∧ i < j)) := by
  intro l
  induction l with
  | nil => intro _; simp [sortBy]
  | cons x xs ih =>
    intro hl
    rcases List.pairwise_cons.mp hl with ⟨hx, hxs⟩
    show (insBy (fun i j => decide (dev i < dev j)) x
      (sortBy (fun i j => decide (dev i < dev j)) xs)).Pairwise _
    refine insBy_argsort_pairwise dev x _ (ih hxs) ?_
    intro y hy
    exact hx y ((sortBy_perm _ xs).mem_iff.mp hy)

theorem argsortL_pairwise (xs : List ℚ) :
    (argsortL xs).Pairwise (fun i j =>
      nthD 0 xs i < nthD 0 xs j ∨ (nthD 0 xs i = nthD 0 xs j ∧ i < j)) :=
  sortBy_argsort_pairwise (fun i => nthD 0 xs i) (List.range xs.length)
    (List.pairwise_lt_range xs.length)

/-- C7, amended.  `get_top_features` returns the names of the first three
indices of a list that is a permutation of all six feature indices, sorted
strictly: by deviation descending, and — for equal deviations — by position
in `FEATURE_NAMES` descending.  So it does pick the 3 features of largest
absolute scaled deviation, but ties prefer the feature occurring later in
`FEATURE_NAMES` (the reversal of the stable ascending `np.argsort` reverses
tie order), not the earlier one claimed. -/
theorem c7_top_features_order (v : FeatureVector) (s : Scaler)
    (hm : s.mean_.length = 6) (hs : s.scale_.length = 6) :
    ∃ l : List ℕ, l.Perm (List.range 6) ∧
      l.Pairwise (fun i j =>
        nthD 0 (deviationsOf v s) j < nthD 0 (deviationsOf v s) i ∨
        (nthD 0 (deviationsOf v s) i = nthD 0 (deviationsOf v s) j ∧
          j < i)) ∧
      get_top_features v s 3 =
        (l.take 3).map (fun i => nthD ("") FEATURE_NAMES i) := by
  have hlen : (deviationsOf v s).length = 6 := by
    simp [deviationsOf, transformRow, rowOf, hm, hs]
  refine ⟨(argsortL (deviationsOf v s)).reverse, ?_, ?_, rfl⟩
  · refine (List.reverse_perm _).trans ?_
    have : List.Perm (argsortL (deviationsOf v s))
        (List.range (deviationsOf v s).length) := sortBy_perm _ _
    rw [hlen] at this
    exact this
  · rw [List.pairwise_reverse]
    refine (argsortL_pairwise (deviationsOf v s)).imp ?_
    intro i j hij
    rcases hij with hlt | ⟨heq, hlt⟩
    · exact Or.inl hlt
    · exact Or.inr ⟨heq.symm, hlt⟩

/-- C7, witness: the amended theorem at the trivial scaler. -/
theorem c7_witness :
    ∃ l : List ℕ, l.Perm (List.range 6) ∧
      l.Pairwise (fun i j =>
        nthD 0 (deviationsOf vecU scalerU) j <
          nthD 0 (deviationsOf vecU scalerU) i ∨
        (nthD 0 (deviationsOf vecU scalerU) i =
          nthD 0 (deviationsOf vecU scalerU) j ∧ j < i)) ∧
      get_top_features vecU scalerU 3 =
        (l.take 3).map (fun i => nthD ("") FEATURE_NAMES i) :=
  c7_top_features_order vecU scalerU rfl rfl

/-- C7, counterexample.  With the trivial scaler and an all-ones feature
vector every deviation ties at 1, yet the returned features are the three
that occur last in `FEATURE_NAMES`, in reverse order — not the three
earliest as the claimed `FEATURE_NAMES` tie-break order would give. -/
theorem c7_counterexample :
    deviationsOf vecU scalerU = [1, 1, 1, 1, 1, 1] ∧
    get_top_features vecU scalerU 3 =
      ["request_count", "night_ratio", "unique_paths_ratio"] ∧
    ["request_count", "night_ratio", "unique_paths_ratio"] ≠
      ["avg_interval_s", "cv", "bytes_sent_cv"] := by
  have hrange : List.range 6 = [0, 1, 2, 3, 4, 5] := rfl
  have hdev : deviationsOf vecU scalerU = [1, 1, 1, 1, 1, 1] := by
    norm_num [deviationsOf, transformRow, rowOf, vecU, scalerU]
  refine ⟨hdev, ?_, by simp⟩
  norm_num [get_top_features, argsortL, hdev, hrange, sortBy, insBy, nthD,
    FEATURE_NAMES]

theorem tier1_row_props {sqrtFn : ℚ → ℚ} {logs : List LogEntry}
    {mean std z : ℚ} {k : GroupKey} {r : Tier1Result}
    (h : tier1_row sqrtFn logs mean std z k = some r) :
    MIN_REQUESTS ≤ r.request_count ∧
    2 ≤ r.methods_fired.length ∧
    r.severity = severityOf r.methods_fired.length ∧
    ("avg_interval_s" ∈ r.evidence.map Prod.fst ∧
      "jitter_s" ∈ r.evidence.map Prod.fst ∧
      "iqr_s" ∈ r.evidence.map Prod.fst ∧
      "q1_s" ∈ r.evidence.map Prod.fst ∧
      "q3_s" ∈ r.evidence.map Prod.fst) ∧
    (("zscore" ∈ r.evidence.map Prod.fst ↔ "zscore" ∈ r.methods_fired) ∧
      ("pop_mean" ∈ r.evidence.map Prod.fst ↔ "zscore" ∈ r.methods_fired) ∧
      ("pop_std" ∈ r.evidence.map Prod.fst ↔ "zscore" ∈ r.methods_fired)) := by
  simp only [tier1_row] at h
  rcases Option.bind_eq_some.mp h with ⟨sample, hs, h2⟩
  split_ifs at h2
  all_goals (obtain rfl := (Option.some.inj h2).symm)
  all_goals simp_all [MIN_REQUESTS, severityOf]

theorem mem_run_tier1 {sqrtFn : ℚ → ℚ} {logs : List LogEntry}
    {r : Tier1Result} (hr : r ∈ run_tier1 sqrtFn logs) :
    ∃ mean std z k, tier1_row sqrtFn logs mean std z k = some r := by
  simp only [run_tier1] at hr
  rcases List.mem_filterMap.mp ((sortBy_perm _ _).mem_iff.mp hr) with
    ⟨k, _, hrow⟩
  exact ⟨_, _, _, k, hrow⟩

/-- C2, amended.  Every finding emitted by `run_tier1` has
`request_count ≥ MIN_REQUESTS` and therefore records the interval
quantities `avg_interval_s`, `jitter_s`, `iqr_s`, `q1_s` and `q3_s` in its
evidence dictionary; but the z-score quantities `zscore`, `pop_mean` and
`pop_std` are recorded exactly when the z-score method fired — although the
z-score is computed for every key, it is not recorded for every emitted
finding, contrary to the claim (see the counterexample). -/
theorem c2_evidence_presence (sqrtFn : ℚ → ℚ) (logs : List LogEntry)
    (r : Tier1Result) (hr : r ∈ run_tier1 sqrtFn logs) :
    MIN_REQUESTS ≤ r.request_count ∧
    ("avg_interval_s" ∈ r.evidence.map Prod.fst ∧
      "jitter_s" ∈ r.evidence.map Prod.fst ∧
      "iqr_s" ∈ r.evidence.map Prod.fst ∧
      "q1_s" ∈ r.evidence.map Prod.fst ∧
      "q3_s" ∈ r.evidence.map Prod.fst) ∧
    (("zscore" ∈ r.evidence.map Prod.fst ↔ "zscore" ∈ r.methods_fired) ∧
      ("pop_mean" ∈ r.evidence.map Prod.fst ↔ "zscore" ∈ r.methods_fired) ∧
      ("pop_std" ∈ r.evidence.map Prod.fst ↔ "zscore" ∈ r.methods_fired)) := by
  rcases mem_run_tier1 hr with ⟨mean, std, z, k, hrow⟩
  rcases tier1_row_props hrow with ⟨h1, _, _, h4, h5⟩
  exact ⟨h1, h4, h5⟩

theorem run_tier1_logsA_eval :
    (run_tier1 ratSqrt logsA).map (fun r =>
      (r.methods_fired, r.request_count, r.severity,
        r.evidence.map Prod.fst)) =
    [(["interval_threshold", "iqr"], 12, "high",
      ["request_count", "avg_interval_s", "jitter_s", "iqr_s", "q1_s",
        "q3_s"])] := by
  norm_num [run_tier1, tier1_row, keysOf, dedupF, groupOf, sampleOf, keyOf,
    domainOf, wEntry, logsA, sortVals, sortBy, insBy, diffL, meanL, varL,
    percentileL, ratSqrt, severityOf, minL, maxL, pyRound, nthD,
    ZSCORE_THRESHOLD, INTERVAL_MAX_AVG_S, INTERVAL_MAX_JITTER_S, IQR_MAX,
    MIN_REQUESTS, List.filterMap, List.find?, Nat.sqrt, Int.toNat_ofNat]

/-- C2, counterexample.  On `logsA` Tier 1 emits one finding, whose fired
methods are `interval_threshold` and `iqr`; its evidence dictionary has no
`zscore`, `pop_mean` or `pop_std` entry (the z-score of its key is 0, below
the threshold), refuting the claim that those are recorded for every
emitted finding. -/
theorem c2_counterexample :
    (run_tier1 ratSqrt logsA).map (fun r => r.evidence.map Prod.fst) =
      [["request_count", "avg_interval_s", "jitter_s", "iqr_s", "q1_s",
        "q3_s"]] ∧
    (run_tier1 ratSqrt logsA).map Tier1Result.methods_fired =
      [["interval_threshold", "iqr"]] ∧
    ¬"zscore" ∈ ["request_count", "avg_interval_s", "jitter_s", "iqr_s",
      "q1_s", "q3_s"] := by
  have h := run_tier1_logsA_eval
  constructor
  · have := congrArg (List.map (fun p =>
      (p.2.2.2 : List String))) h
    simpa [Function.comp] using this
  constructor
  · have := congrArg (List.map (fun p =>
      (p.1 : List String))) h
    simpa [Function.comp] using this
  · simp

/-- C2, witness: the amended theorem at the single finding of `logsA`. -/
theorem c2_witness :
    ∃ r ∈ run_tier1 ratSqrt logsA,
      MIN_REQUESTS ≤ r.request_count ∧
      "avg_interval_s" ∈ r.evidence.map Prod.fst ∧
      ("zscore" ∈ r.evidence.map Prod.fst ↔ "zscore" ∈ r.methods_fired) := by
  have hlen : (run_tier1 ratSqrt logsA).length = 1 := by
    have := congrArg List.length run_tier1_logsA_eval
    simpa using this
  have hne : run_tier1 ratSqrt logsA ≠ [] := by
    intro hnil
    rw [hnil] at hlen
    simp at hlen
  refine ⟨(run_tier1 ratSqrt logsA).head hne, List.head_mem hne, ?_⟩
  have h := c2_evidence_presence ratSqrt logsA
    ((run_tier1 ratSqrt logsA).head hne) (List.head_mem hne)
  exact ⟨h.1, h.2.1.1, h.2.2.1⟩

theorem normalize_scores_length (s : List ℚ) :
    (normalize_scores s).length = s.length := by
  simp only [normalize_scores]
  split
  · simp
  · simp

theorem normalize_scores_const {s : List ℚ}
    (hc : ∀ a ∈ s, ∀ b ∈ s, a = b) :
    normalize_scores s = s.map (fun _ => 0) := by
  simp only [normalize_scores]
  rcases hs : s with _ | ⟨x, t⟩
  · simp
  · rw [← hs]
    have hflip : ∀ p ∈ s.map (fun a => -a), ∀ q ∈ s.map (fun a => -a),
        p = q := by
      intro p hp q hq
      rcases List.mem_map.mp hp with ⟨a, ha, rfl⟩
      rcases List.mem_map.mp hq with ⟨b, hb, rfl⟩
      rw [hc a ha b hb]
    have hne : s.map (fun a => -a) ≠ [] := by
      rw [hs]
      simp
    have heq : maxL (s.map (fun a => -a)) = minL (s.map (fun a => -a)) :=
      hflip _ (maxL_mem hne) _ (minL_mem hne)
    rw [if_pos heq]

theorem mem_normalize_bounds {s : List ℚ} {c : ℚ}
    (hc : c ∈ normalize_scores s) : 0 ≤ c ∧ c ≤ 1 := by
  simp only [normalize_scores] at hc
  split at hc
  · rcases List.mem_map.mp hc with ⟨_, _, rfl⟩
    norm_num
  · rename_i h
    rcases List.mem_map.mp hc with ⟨f, hf, rfl⟩
    have hne : s.map (fun a => -a) ≠ [] := by
      intro hnil
      rw [hnil] at h
      simp [minL, maxL] at h
    have hmnf := minL_le hf
    have hfmx := maxL_le hf
    have hmnmx : minL (s.map (fun a => -a)) < maxL (s.map (fun a => -a)) :=
      lt_of_le_of_ne (minL_le (maxL_mem hne)) (fun hmm => h hmm.symm)
    have hpos : 0 < maxL (s.map (fun a => -a)) - minL (s.map (fun a => -a)) :=
      sub_pos.mpr hmnmx
    constructor
    · exact div_nonneg (sub_nonneg.mpr hmnf) (le_of_lt hpos)
    · rw [div_le_one hpos]
      exact sub_le_sub_right hfmx _

/-- C9.  Whenever the raw isolation-forest scores of the skip-filtered
feature vectors are all equal — in particular whenever exactly one vector
remains after the `skip_keys` filter — `run_tier2` returns the empty list:
the min-max normaliser maps a constant batch to all-zero confidences, and
every row falls below `CONFIDENCE_THRESHOLD`. -/
theorem c9_constant_scores_empty (g : List ℚ → ℚ) (scaler : Scaler)
    (logs : List LogEntry) (skip_keys : List GroupKey) (sqrtFn : ℚ → ℚ)
    (hyp :
      ((extract_features sqrtFn logs).filter
          (fun v => decide ((v.src_ip, v.domain) ∉ skip_keys))).length = 1 ∨
      (∀ a ∈ (transformM scaler (to_matrix
          ((extract_features sqrtFn logs).filter
            (fun v => decide ((v.src_ip, v.domain) ∉ skip_keys))))).map g,
        ∀ b ∈ (transformM scaler (to_matrix
          ((extract_features sqrtFn logs).filter
            (fun v => decide ((v.src_ip, v.domain) ∉ skip_keys))))).map g,
        a = b)) :
    run_tier2 g scaler logs skip_keys sqrtFn = [] := by
  have hconst :
      ∀ a ∈ (transformM scaler (to_matrix
          ((extract_features sqrtFn logs).filter
            (fun v => decide ((v.src_ip, v.domain) ∉ skip_keys))))).map g,
      ∀ b ∈ (transformM scaler (to_matrix
          ((extract_features sqrtFn logs).filter
            (fun v => decide ((v.src_ip, v.domain) ∉ skip_keys))))).map g,
      a = b := by
    rcases hyp with hlen | hconst
    · intro a ha b hb
      have h1 : ((transformM scaler (to_matrix
          ((extract_features sqrtFn logs).filter
            (fun v => decide ((v.src_ip, v.domain) ∉ skip_keys))))).map
          g).length = 1 := by
        simp only [transformM, to_matrix, List.length_map]
        exact hlen
      rcases List.length_eq_one.mp h1 with ⟨x, hx⟩
      rw [hx] at ha hb
      rcases List.mem_singleton.mp ha with rfl
      rcases List.mem_singleton.mp hb with rfl
      rfl
    · exact hconst
  simp only [run_tier2]
  by_cases h0 : (extract_features sqrtFn logs).isEmpty
  · rw [if_pos h0]
  · rw [if_neg h0]
    by_cases h1 : ((extract_features sqrtFn logs).filter
        (fun v => decide ((v.src_ip, v.domain) ∉ skip_keys))).isEmpty
    · rw [if_pos h1]
    · rw [if_neg h1]
      have hzero := normalize_scores_const hconst
      rw [hzero]
      have hfm : ∀ x ∈ ((extract_features sqrtFn logs).filter
          (fun v => decide ((v.src_ip, v.domain) ∉ skip_keys))).zip
          ((((transformM scaler (to_matrix
            ((extract_features sqrtFn logs).filter
              (fun v => decide ((v.src_ip, v.domain) ∉ skip_keys))))).map
            g).map (fun _ => (0 : ℚ))).zip
            ((transformM scaler (to_matrix
              ((extract_features sqrtFn logs).filter
                (fun v => decide ((v.src_ip, v.domain) ∉ skip_keys))))).map
              g)),
          x.2.1 = 0 := by
        intro x hx
        have := (List.of_mem_zip hx).2
        have := (List.of_mem_zip this).1
        rcases List.mem_map.mp this with ⟨_, _, h⟩
        exact h.symm
      rw [List.filterMap_eq_nil_iff.mpr ?_]
      · rfl
      · intro x hx
        simp only [tier2_row]
        rw [hfm x hx]
        rw [if_pos (by norm_num [CONFIDENCE_THRESHOLD])]

theorem pyRound_mono (n : ℕ) {a b : ℚ} (h : a ≤ b) :
    pyRound n a ≤ pyRound n b := by
  unfold pyRound
  have hpow : (0 : ℚ) < 10 ^ n := by positivity
  have h2 : (⌊a * 10 ^ n + 1 / 2⌋ : ℤ) ≤ ⌊b * 10 ^ n + 1 / 2⌋ :=
    Int.floor_mono (add_le_add_right
      (mul_le_mul_of_nonneg_right h (le_of_lt hpow)) _)
  exact (div_le_div_iff_of_pos_right hpow).mpr (Int.cast_le.mpr h2)

theorem mem_run_tier2_conf {g : List ℚ → ℚ} {scaler : Scaler}
    {logs : List LogEntry} {skip_keys : List GroupKey} {sqrtFn : ℚ → ℚ}
    {r : Tier2Result} (hr : r ∈ run_tier2 g scaler logs skip_keys sqrtFn) :
    ∃ c, c ∈ normalize_scores ((transformM scaler (to_matrix
        ((extract_features sqrtFn logs).filter
          (fun v => decide ((v.src_ip, v.domain) ∉ skip_keys))))).map g) ∧
      ¬(c < CONFIDENCE_THRESHOLD) ∧ r.confidence = pyRound 4 c := by
  simp only [run_tier2] at hr
  by_cases h0 : (extract_features sqrtFn logs).isEmpty
  · rw [if_pos h0] at hr
    cases hr
  rw [if_neg h0] at hr
  by_cases h1 : ((extract_features sqrtFn logs).filter
      (fun v => decide ((v.src_ip, v.domain) ∉ skip_keys))).isEmpty
  · rw [if_pos h1] at hr
    cases hr
  rw [if_neg h1] at hr
  rcases List.mem_filterMap.mp ((sortBy_perm _ _).mem_iff.mp hr) with
    ⟨vcr, hzip, hbody⟩
  obtain ⟨v, c, rs⟩ := vcr
  simp only [tier2_row] at hbody
  by_cases hth : c < CONFIDENCE_THRESHOLD
  · rw [if_pos hth] at hbody
    cases hbody
  rw [if_neg hth] at hbody
  obtain rfl := (Option.some.inj hbody).symm
  exact ⟨c, (List.of_mem_zip (List.of_mem_zip hzip).2).1, hth, rfl⟩

/-- C4.  Every result of `run_tier2` has confidence at least
`CONFIDENCE_THRESHOLD` and within `[0, 1]`; and whenever `run_tier2` emits
at least one result, some emitted result has confidence exactly 1 (the
min-max normaliser maps the most anomalous row of the batch to 1, which
passes the threshold; since all confidences are at most 1, the maximum is
exactly 1).  Holds for every model scoring function, scaler and square-root
interpretation. -/
theorem c4_confidence_bounds (g : List ℚ → ℚ) (scaler : Scaler)
    (logs : List LogEntry) (skip_keys : List GroupKey) (sqrtFn : ℚ → ℚ) :
    (∀ r ∈ run_tier2 g scaler logs skip_keys sqrtFn,
      CONFIDENCE_THRESHOLD ≤ r.confidence ∧ 0 ≤ r.confidence ∧
        r.confidence ≤ 1) ∧
    (run_tier2 g scaler logs skip_keys sqrtFn ≠ [] →
      ∃ r ∈ run_tier2 g scaler logs skip_keys sqrtFn, r.confidence = 1) := by
  constructor
  · intro r hr
    rcases mem_run_tier2_conf hr with ⟨c, hcmem, hth, hconf⟩
    rcases mem_normalize_bounds hcmem with ⟨hc0, hc1⟩
    have hth2 : CONFIDENCE_THRESHOLD ≤ c := not_lt.mp hth
    refine ⟨?_, ?_, ?_⟩
    · rw [hconf]
      calc CONFIDENCE_THRESHOLD = pyRound 4 CONFIDENCE_THRESHOLD := by
            norm_num [pyRound, CONFIDENCE_THRESHOLD]
        _ ≤ pyRound 4 c := pyRound_mono 4 hth2
    · rw [hconf]
      calc (0 : ℚ) = pyRound 4 0 := by norm_num [pyRound]
        _ ≤ pyRound 4 c := pyRound_mono 4 hc0
    · rw [hconf]
      calc pyRound 4 c ≤ pyRound 4 1 := pyRound_mono 4 hc1
        _ = 1 := by norm_num [pyRound]
  · intro hne
    rcases List.exists_mem_of_ne_nil _ hne with ⟨r0, hr0⟩
    rcases mem_run_tier2_conf hr0 with ⟨c0, hc0mem, hth0, _⟩
    have h0 : ¬(extract_features sqrtFn logs).isEmpty := by
      intro h
      apply hne
      simp only [run_tier2]
      rw [if_pos h]
    have h1 : ¬((extract_features sqrtFn logs).filter
        (fun v => decide ((v.src_ip, v.domain) ∉ skip_keys))).isEmpty := by
      intro h
      apply hne
      simp only [run_tier2]
      rw [if_neg h0, if_pos h]
    have hdeg : ¬(maxL (((transformM scaler (to_matrix
        ((extract_features sqrtFn logs).filter
          (fun v => decide ((v.src_ip, v.domain) ∉ skip_keys))))).map
          g).map (fun s => -s)) =
        minL (((transformM scaler (to_matrix
        ((extract_features sqrtFn logs).filter
          (fun v => decide ((v.src_ip, v.domain) ∉ skip_keys))))).map
          g).map (fun s => -s))) := by
      intro hdeg
      simp only [normalize_scores] at hc0mem
      rw [if_pos hdeg] at hc0mem
      rcases List.mem_map.mp hc0mem with ⟨_, _, hc0z⟩
      rw [← hc0z] at hth0
      exact hth0 (by norm_num [CONFIDENCE_THRESHOLD])
    have hflipne : (((transformM scaler (to_matrix
        ((extract_features sqrtFn logs).filter
          (fun v => decide ((v.src_ip, v.domain) ∉ skip_keys))))).map
          g).map (fun s => -s)) ≠ [] := by
      intro hnil
      rw [hnil] at hdeg
      exact hdeg rfl
    rcases List.mem_iff_getElem.mp (maxL_mem hflipne) with ⟨i, hi, hgi⟩
    have hnorm : normalize_scores ((transformM scaler (to_matrix
        ((extract_features sqrtFn logs).filter
          (fun v => decide ((v.src_ip, v.domain) ∉ skip_keys))))).map g) =
        (((transformM scaler (to_matrix
          ((extract_features sqrtFn logs).filter
            (fun v => decide ((v.src_ip, v.domain) ∉ skip_keys))))).map
            g).map (fun s => -s)).map
          (fun f => (f - minL (((transformM scaler (to_matrix
            ((extract_features sqrtFn logs).filter
              (fun v => decide ((v.src_ip, v.domain) ∉ skip_keys))))).map
              g).map (fun s => -s))) /
            (maxL (((transformM scaler (to_matrix
            ((extract_features sqrtFn logs).filter
              (fun v => decide ((v.src_ip, v.domain) ∉ skip_keys))))).map
              g).map (fun s => -s)) -
            minL (((transformM scaler (to_matrix
            ((extract_features sqrtFn logs).filter
              (fun v => decide ((v.src_ip, v.domain) ∉ skip_keys))))).map
              g).map (fun s => -s)))) := by
      simp only [normalize_scores]
      rw [if_neg hdeg]
    have hiraw : i < ((transformM scaler (to_matrix
        ((extract_features sqrtFn logs).filter
          (fun v => decide ((v.src_ip, v.domain) ∉ skip_keys))))).map
          g).length := by
      simpa using hi
    have hivec : i < ((extract_features sqrtFn logs).filter
        (fun v => decide ((v.src_ip, v.domain) ∉ skip_keys))).length := by
      simpa [transformM, to_matrix] using hiraw
    have hiconf : i < (normalize_scores ((transformM scaler (to_matrix
        ((extract_features sqrtFn logs).filter
          (fun v => decide ((v.src_ip, v.domain) ∉ skip_keys))))).map
          g)).length := by
      rw [normalize_scores_length]
      exact hiraw
    have hcz : (normalize_scores ((transformM scaler (to_matrix
        ((extract_features sqrtFn logs).filter
          (fun v => decide ((v.src_ip, v.domain) ∉ skip_keys))))).map
          g))[i] = 1 := by
      have hx := List.getElem_of_eq hnorm hiconf
      rw [hx, List.getElem_map, hgi, div_self (sub_ne_zero.mpr
        (fun hmm => hdeg hmm))]
    set vecs := (extract_features sqrtFn logs).filter
      (fun v => decide ((v.src_ip, v.domain) ∉ skip_keys)) with hvecsdef
    set raws := (transformM scaler (to_matrix vecs)).map g with hrawsdef
    set confs := normalize_scores raws with hconfsdef
    have hlv : vecs.length = raws.length := by
      simp [hrawsdef, transformM, to_matrix]
    have hlc : confs.length = raws.length := by
      rw [hconfsdef, normalize_scores_length]
    have hizip : i < (vecs.zip (confs.zip raws)).length := by
      rw [List.length_zip, List.length_zip, hlc, hlv, min_self, min_self]
      exact hiraw
    have hz : (vecs.zip (confs.zip raws))[i] =
        (vecs[i], confs[i],
          raws[i]) := by
      rw [List.getElem_zip, List.getElem_zip]
    obtain ⟨rr, hrr⟩ : ∃ rr, tier2_row scaler
        ((vecs.zip (confs.zip raws))[i]) = some rr := by
      rw [hz]
      simp only [tier2_row]
      rw [if_neg (by rw [hcz]; norm_num [CONFIDENCE_THRESHOLD])]
      exact ⟨_, rfl⟩
    refine ⟨rr, ?_, ?_⟩
    · simp only [run_tier2]
      rw [if_neg h0, if_neg h1]
      refine (sortBy_perm _ _).mem_iff.mpr (List.mem_filterMap.mpr
        ⟨_, List.getElem_mem hizip, hrr⟩)
    · rw [hz] at hrr
      simp only [tier2_row] at hrr
      rw [if_neg (by rw [hcz]; norm_num [CONFIDENCE_THRESHOLD])] at hrr
      obtain rfl := (Option.some.inj hrr).symm
      show pyRound 4 (confs[i]) = 1
      rw [hcz]
      norm_num [pyRound]

set_option maxRecDepth 8000 in
set_option maxHeartbeats 2000000 in
theorem extract_logs30_len : (extract_features ratSqrt logs30).length = 1 := by
  norm_num [extract_features, keysOf, dedupF, groupOf, sampleOf, keyOf,
    domainOf, pathOf, hourOf, wEntry, logs30, sortBy, insBy, diffL, meanL,
    varL, ratSqrt, minL, maxL, pyRound, nthD, GROUP_MIN, List.filterMap,
    List.find?, Nat.sqrt, Int.toNat_ofNat]

set_option maxRecDepth 40000 in
set_option maxHeartbeats 4000000 in
theorem extract_logs60_eval :
    extract_features ratSqrt logs60 = [v60a, v60b] := by
  have hkeys : keysOf logs60 =
      [("10.0.0.7", "beacon.c2"), ("10.0.0.8", "beacon.c2")] := by decide
  have hg7 : groupOf logs60 ("10.0.0.7", "beacon.c2") = logs30 := by decide
  have hg8 : groupOf logs60 ("10.0.0.8", "beacon.c2") = logs30b := by decide
  have hs7 : sampleOf logs60 ("10.0.0.7", "beacon.c2") =
      some (wEntry 0 ("carol") ("10.0.0.7") ("beacon.c2/b")) := by decide
  have hs8 : sampleOf logs60 ("10.0.0.8", "beacon.c2") =
      some (wEntry 0 ("dave") ("10.0.0.8") ("beacon.c2/b")) := by decide
  have hsort7 : sortBy (fun y x => decide (y.timestamp < x.timestamp))
      logs30 = logs30 := by decide
  have hsort8 : sortBy (fun y x => decide (y.timestamp < x.timestamp))
      logs30b = logs30b := by decide
  have hpaths7 : (logs30.map (fun e => pathOf e.url)).dedup.length = 1 := by
    decide
  have hpaths8 : (logs30b.map (fun e => pathOf e.url)).dedup.length = 1 := by
    decide
  have hnight7 : logs30.countP (fun e =>
      decide (hourOf e.timestamp < 8 ∨ hourOf e.timestamp ≥ 20)) = 30 := by
    decide
  have hnight8 : logs30b.countP (fun e =>
      decide (hourOf e.timestamp < 8 ∨ hourOf e.timestamp ≥ 20)) = 30 := by
    decide
  simp only [extract_features, hkeys, List.filterMap_cons, List.filterMap_nil,
    hg7, hg8, hs7, hs8, hsort7, hsort8, Option.some_bind, hpaths7, hpaths8,
    hnight7, hnight8]
  norm_num [logs30, logs30b, wEntry, v60a, v60b, diffL, meanL, varL, ratSqrt,
    pyRound, GROUP_MIN, Nat.sqrt, Int.toNat_ofNat]

set_option maxRecDepth 40000 in
set_option maxHeartbeats 4000000 in
theorem tier2_logs60_len :
    (run_tier2 gW scalerU logs60 [] ratSqrt).length = 1 := by
  simp only [run_tier2, extract_logs60_eval]
  norm_num [tier2_row, v60a, v60b, wEntry, gW, scalerU, sortBy, insBy,
    normalize_scores, minL, maxL, to_matrix, rowOf, transformM, transformRow,
    pyRound, nthD, CONFIDENCE_THRESHOLD, List.filterMap, Int.toNat_ofNat]

/-- C4, witness: on `logs60` (two beaconing hosts with different periods)
Tier 2 emits a finding, and one emitted finding has confidence exactly 1. -/
theorem c4_witness :
    ∃ r ∈ run_tier2 gW scalerU logs60 [] ratSqrt, r.confidence = 1 :=
  (c4_confidence_bounds gW scalerU logs60 [] ratSqrt).2 (by
    intro hnil
    have h := tier2_logs60_len
    rw [hnil] at h
    simp at h)

/-- C9, witness: on `logs30` exactly one feature vector survives the (empty)
skip filter, so Tier 2 emits nothing however anomalous the group is. -/
theorem c9_witness : run_tier2 gW scalerU logs30 [] ratSqrt = [] :=
  c9_constant_scores_empty gW scalerU logs30 [] ratSqrt (Or.inl (by
    have hfil : (extract_features ratSqrt logs30).filter
        (fun v => decide ((v.src_ip, v.domain) ∉ ([] : List GroupKey))) =
        extract_features ratSqrt logs30 := by
      simp
    rw [hfil, extract_logs30_len]))

/-- C6.  Every feature vector emitted by `extract_features` comes from a
group of at least `GROUP_MIN` (30) entries, and its group's mean
inter-arrival interval is nonzero: groups with no intervals or zero mean
interval are dropped before the `cv` division, so
`std(intervals) / avg_interval` never divides by zero on an emitted
vector. -/
theorem c6_group_min_and_nonzero_interval (sqrtFn : ℚ → ℚ)
    (logs : List LogEntry) (v : FeatureVector)
    (hv : v ∈ extract_features sqrtFn logs) :
    GROUP_MIN ≤ v.request_count ∧
    meanIntervalOf logs (v.src_ip, v.domain) ≠ 0 := by
  simp only [extract_features] at hv
  rcases List.mem_filterMap.mp hv with ⟨k, hk, hbody⟩
  rcases Option.bind_eq_some.mp hbody with ⟨sample, hs, h2⟩
  split_ifs at h2 with hlen hdrop
  all_goals obtain rfl := (Option.some.inj h2).symm
  all_goals push_neg at hdrop
  all_goals exact ⟨not_lt.mp hlen, hdrop.2⟩

/-- C6, witness: the theorem at the single vector extracted from
`logs30`. -/
theorem c6_witness :
    ∃ v ∈ extract_features ratSqrt logs30,
      GROUP_MIN ≤ v.request_count ∧
      meanIntervalOf logs30 (v.src_ip, v.domain) ≠ 0 := by
  have hne : extract_features ratSqrt logs30 ≠ [] := by
    intro hnil
    have h := extract_logs30_len
    rw [hnil] at h
    simp at h
  exact ⟨(extract_features ratSqrt logs30).head hne, List.head_mem hne,
    c6_group_min_and_nonzero_interval ratSqrt logs30 _ (List.head_mem hne)⟩

theorem tier3_row_severity_cases
    {explain_fn : Option Tier1Result → Option Tier2Result →
      Except String Explanation}
    {t1s : List Tier1Result} {t2s : List Tier2Result} {k : GroupKey}
    {r : Tier3Result} (h : tier3_row explain_fn t1s t2s k = some r) :
    (∃ r1 ∈ t1s, r.severity = r1.severity) ∨
    r.severity = "critical" ∨ r.severity = "high" ∨
    ∃ r2 ∈ t2s, r2.confidence < 7 / 10 := by
  simp only [tier3_row] at h
  cases h1 : lookupLast t1Key t1s k with
  | some r1 =>
    cases hex : explain_fn (some r1) (lookupLast t2Key t2s k) with
    | error e =>
      simp only [h1, hex] at h
      exact Option.noConfusion h
    | ok ex =>
      simp only [h1, hex, Option.some.injEq] at h
      refine Or.inl ⟨r1, (lookupLast_eq_some h1).1, ?_⟩
      obtain rfl := h.symm
      rfl
  | none =>
    cases h2 : lookupLast t2Key t2s k with
    | none =>
      cases hex : explain_fn none none with
      | error e =>
        simp only [h1, h2, hex] at h
        exact Option.noConfusion h
      | ok ex =>
        simp only [h1, h2, hex, Option.some.injEq] at h
        obtain rfl := h.symm
        refine Or.inr (Or.inl ?_)
        show (if (1 : ℚ) ≥ 9 / 10 then "critical"
          else if (1 : ℚ) ≥ 7 / 10 then "high" else "medium") = "critical"
        norm_num
    | some r2 =>
      cases hex : explain_fn none (some r2) with
      | error e =>
        simp only [h1, h2, hex] at h
        exact Option.noConfusion h
      | ok ex =>
        simp only [h1, h2, hex, Option.some.injEq] at h
        obtain rfl := h.symm
        by_cases hc9 : r2.confidence ≥ (9 : ℚ) / 10
        · refine Or.inr (Or.inl ?_)
          show (if r2.confidence ≥ 9 / 10 then "critical"
            else if r2.confidence ≥ 7 / 10 then "high" else "medium") =
            "critical"
          rw [if_pos hc9]
        · by_cases hc7 : r2.confidence ≥ (7 : ℚ) / 10
          · refine Or.inr (Or.inr (Or.inl ?_))
            show (if r2.confidence ≥ 9 / 10 then "critical"
              else if r2.confidence ≥ 7 / 10 then "high" else "medium") =
              "high"
            rw [if_neg hc9, if_pos hc7]
          · exact Or.inr (Or.inr (Or.inr
              ⟨r2, (lookupLast_eq_some h2).1, lt_of_not_ge hc7⟩))

/-- C10.  On actual pipeline inputs — Tier 1 results from `run_tier1` and
Tier 2 results from `run_tier2` — every result emitted by `run_tier3` has
severity `"high"` or `"critical"`: a Tier 1 finding always fires 2 or 3
methods (severity `"high"`/`"critical"`), and a Tier 2 finding always has
confidence ≥ 0.70, so the `"medium"` branch of the severity derivation is
unreachable. -/
theorem c10_severity_high_or_critical
    (sqrtFn : ℚ → ℚ) (g : List ℚ → ℚ) (scaler : Scaler)
    (skip_keys : List GroupKey)
    (explain_fn : Option Tier1Result → Option Tier2Result →
      Except String Explanation)
    (keyOrder : List GroupKey) (logs : List LogEntry) (r : Tier3Result)
    (hr : r ∈ run_tier3 explain_fn keyOrder (run_tier1 sqrtFn logs)
      (run_tier2 g scaler logs skip_keys sqrtFn)) :
    r.severity = "high" ∨ r.severity = "critical" := by
  simp only [run_tier3] at hr
  rcases List.mem_filterMap.mp ((sortBy_perm _ _).mem_iff.mp hr) with
    ⟨k, _, hrow⟩
  rcases tier3_row_severity_cases hrow with h | h | h | ⟨r2, hr2, hlt⟩
  · rcases h with ⟨r1, hr1, hsev⟩
    rcases mem_run_tier1 hr1 with ⟨mean, std, z, k2, hrow1⟩
    rcases tier1_row_props hrow1 with ⟨_, hlen2, hsev1, _⟩
    rw [hsev, hsev1]
    unfold severityOf
    rw [if_neg (by omega : ¬r1.methods_fired.length = 1)]
    by_cases h2 : r1.methods_fired.length = 2
    · rw [if_pos h2]
      exact Or.inl rfl
    · rw [if_neg h2]
      exact Or.inr rfl
  · exact Or.inr h
  · exact Or.inl h
  · exfalso
    rcases mem_run_tier2_conf hr2 with ⟨c, _, hge, hconf⟩
    have hc : (7 : ℚ) / 10 ≤ c := by
      simpa [CONFIDENCE_THRESHOLD] using not_lt.mp hge
    have hmono := pyRound_mono 4 hc
    have hfix : pyRound 4 ((7 : ℚ) / 10) = 7 / 10 := by
      norm_num [pyRound]
    rw [hfix] at hmono
    rw [hconf] at hlt
    exact absurd (lt_of_le_of_lt hmono hlt) (lt_irrefl _)

theorem tier2_logsA_nil : run_tier2 gW scalerU logsA [] ratSqrt = [] := by
  have h : extract_features ratSqrt logsA = [] := by decide
  simp [run_tier2, h]

/-- C10, witness: the theorem at a concrete run — `logsA` through Tier 1
(one finding) and Tier 2 (no vectors), explained by the rule-template
explainer over the union of the keys. -/
theorem c10_witness :
    ∃ r ∈ run_tier3 mockOk
        (unionKeys (run_tier1 ratSqrt logsA)
          (run_tier2 gW scalerU logsA [] ratSqrt))
        (run_tier1 ratSqrt logsA) (run_tier2 gW scalerU logsA [] ratSqrt),
      r.severity = "high" ∨ r.severity = "critical" := by
  have h1len : (run_tier1 ratSqrt logsA).length = 1 := by
    have := congrArg List.length run_tier1_logsA_eval
    simpa using this
  have hne : run_tier3 mockOk
      (unionKeys (run_tier1 ratSqrt logsA)
        (run_tier2 gW scalerU logsA [] ratSqrt))
      (run_tier1 ratSqrt logsA) (run_tier2 gW scalerU logsA [] ratSqrt) ≠
      [] := by
    intro hnil
    simp only [run_tier3] at hnil
    have hok : ∀ a b, ∃ e, mockOk a b = Except.ok e :=
      fun a b => ⟨mock_explanation a b, rfl⟩
    have hsub : ∀ k2 ∈ unionKeys (run_tier1 ratSqrt logsA)
        (run_tier2 gW scalerU logsA [] ratSqrt),
        k2 ∈ (run_tier1 ratSqrt logsA).map t1Key ∨
        k2 ∈ (run_tier2 gW scalerU logsA [] ratSqrt).map t2Key := by
      intro k2 hk2
      rcases List.mem_append.mp (mem_dedupF.mp hk2) with hk2 | hk2
      · exact Or.inl hk2
      · exact Or.inr hk2
    have hkeys := filterMap_tier3_keys mockOk (run_tier1 ratSqrt logsA)
      (run_tier2 gW scalerU logsA [] ratSqrt) hok
      (unionKeys (run_tier1 ratSqrt logsA)
        (run_tier2 gW scalerU logsA [] ratSqrt)) hsub
    have hlnil : ((unionKeys (run_tier1 ratSqrt logsA)
        (run_tier2 gW scalerU logsA [] ratSqrt)).filterMap
        (tier3_row mockOk (run_tier1 ratSqrt logsA)
          (run_tier2 gW scalerU logsA [] ratSqrt))) = [] := by
      have hp := sortBy_perm (fun y x : Tier3Result =>
        decide (x.confidence < y.confidence))
        ((unionKeys (run_tier1 ratSqrt logsA)
          (run_tier2 gW scalerU logsA [] ratSqrt)).filterMap
          (tier3_row mockOk (run_tier1 ratSqrt logsA)
            (run_tier2 gW scalerU logsA [] ratSqrt)))
      rw [hnil] at hp
      exact hp.symm.eq_nil
    rw [hlnil] at hkeys
    simp only [List.map_nil] at hkeys
    have hu : t1Key ((run_tier1 ratSqrt logsA).head (by
        intro hn; rw [hn] at h1len; simp at h1len)) ∈
        unionKeys (run_tier1 ratSqrt logsA)
          (run_tier2 gW scalerU logsA [] ratSqrt) := by
      apply mem_dedupF.mpr
      apply List.mem_append.mpr
      exact Or.inl (List.mem_map_of_mem _ (List.head_mem _))
    rw [← hkeys] at hu
    exact absurd hu (List.not_mem_nil _)
  exact ⟨_, List.head_mem hne,
    c10_severity_high_or_critical ratSqrt gW scalerU [] mockOk _ logsA _
      (List.head_mem hne)⟩

theorem meanL_perm {l l' : List ℚ} (h : List.Perm l l') : meanL l = meanL l' := by
  unfold meanL
  rw [h.sum_eq, h.length_eq]

theorem varL_perm {l l' : List ℚ} (h : List.Perm l l') : varL l = varL l' := by
  unfold varL
  rw [meanL_perm h]
  exact meanL_perm (h.map _)

theorem isEmpty_perm {α : Type _} {l l' : List α} (h : List.Perm l l') :
    l.isEmpty = l'.isEmpty := by
  rw [Bool.eq_iff_iff, List.isEmpty_iff, List.isEmpty_iff]
  constructor
  · intro hh
    subst hh
    exact h.symm.eq_nil
  · intro hh
    subst hh
    exact h.eq_nil

theorem minL_perm {l l' : List ℚ} (h : List.Perm l l') : minL l = minL l' := by
  rcases eq_or_ne l [] with rfl | hne
  · rw [h.symm.eq_nil]
  · have hne' : l' ≠ [] := by
      intro hh
      subst hh
      exact hne h.eq_nil
    exact le_antisymm (minL_le (h.mem_iff.mpr (minL_mem hne')))
      (minL_le (h.symm.mem_iff.mpr (minL_mem hne)))

theorem maxL_perm {l l' : List ℚ} (h : List.Perm l l') : maxL l = maxL l' := by
  rcases eq_or_ne l [] with rfl | hne
  · rw [h.symm.eq_nil]
  · have hne' : l' ≠ [] := by
      intro hh
      subst hh
      exact hne h.eq_nil
    exact le_antisymm (maxL_le (h.symm.mem_iff.mpr (maxL_mem hne)))
      (maxL_le (h.mem_iff.mpr (maxL_mem hne')))

theorem sortBy_map_sorted {α γ : Type _} [LinearOrder γ] (f : α → γ)
    (l : List α) :
    ((sortBy (fun y x => decide (f y < f x)) l).map f).Sorted (· ≤ ·) := by
  rw [List.Sorted, List.pairwise_map]
  refine (sortBy_pairwise ?h1 ?h2 l).imp ?himp
  · intro a b hab
    simp only [decide_eq_true_eq] at hab
    simpa using asymm hab
  · intro a b c hcb hba
    simp only [decide_eq_false_iff_not] at hcb hba ⊢
    intro hca
    exact hcb (lt_of_lt_of_le hca (le_of_not_lt hba))
  · intro a b hab
    simp only [decide_eq_false_iff_not] at hab
    exact le_of_not_lt hab

theorem sortBy_map_val_eq {α γ : Type _} [LinearOrder γ] (f : α → γ)
    {l l' : List α} (hp : List.Perm l l') :
    (sortBy (fun y x => decide (f y < f x)) l).map f =
    (sortBy (fun y x => decide (f y < f x)) l').map f :=
  List.eq_of_perm_of_sorted
    (((sortBy_perm _ l).map f).trans
      ((hp.map f).trans ((sortBy_perm _ l').map f).symm))
    (sortBy_map_sorted f l) (sortBy_map_sorted f l')

theorem sortVals_sorted (l : List ℚ) : (sortVals l).Sorted (· ≤ ·) := by
  refine (sortBy_pairwise ?h1 ?h2 l).imp ?himp
  · intro a b hab
    simp only [decide_eq_true_eq] at hab
    simpa using asymm hab
  · intro a b c hcb hba
    simp only [decide_eq_false_iff_not] at hcb hba ⊢
    intro hca
    exact hcb (lt_of_lt_of_le hca (le_of_not_lt hba))
  · intro a b hab
    simp only [decide_eq_false_iff_not] at hab
    exact le_of_not_lt hab

theorem sortVals_perm_eq {l l' : List ℚ} (h : List.Perm l l') :
    sortVals l = sortVals l' :=
  List.eq_of_perm_of_sorted
    ((sortBy_perm _ l).trans (h.trans (sortBy_perm _ l').symm))
    (sortVals_sorted l) (sortVals_sorted l')

theorem dedupF_perm {α : Type _} [DecidableEq α] {l l' : List α}
    (h : List.Perm l l') : List.Perm (dedupF l) (dedupF l') := by
  refine (List.perm_ext_iff_of_nodup (dedupF_nodup l) (dedupF_nodup l')).mpr ?_
  intro a
  rw [mem_dedupF, mem_dedupF]
  exact h.mem_iff

theorem keysOf_perm {logs logs' : List LogEntry} (h : List.Perm logs logs') :
    List.Perm (keysOf logs) (keysOf logs') :=
  dedupF_perm (h.map keyOf)

theorem groupOf_perm {logs logs' : List LogEntry} (h : List.Perm logs logs')
    (k : GroupKey) : List.Perm (groupOf logs k) (groupOf logs' k) :=
  h.filter _

theorem sampleOf_isSome_perm {logs logs' : List LogEntry}
    (h : List.Perm logs logs') (k : GroupKey) :
    (sampleOf logs k).isSome = (sampleOf logs' k).isSome := by
  rw [Bool.eq_iff_iff]
  unfold sampleOf
  rw [List.find?_isSome, List.find?_isSome]
  constructor
  · rintro ⟨x, hx, hpx⟩
    exact ⟨x, h.mem_iff.mp hx, hpx⟩
  · rintro ⟨x, hx, hpx⟩
    exact ⟨x, h.mem_iff.mpr hx, hpx⟩

theorem filterMap_key_nodup {α β κ : Type _} [DecidableEq κ]
    (keyA : α → κ) (keyB : β → κ) (f : α → Option β)
    (hkey : ∀ a b, f a = some b → keyB b = keyA a)
    {l : List α} (hnd : (l.map keyA).Nodup) :
    ((l.filterMap f).map keyB).Nodup := by
  induction l with
  | nil => simp
  | cons a t ih =>
    simp only [List.map_cons, List.nodup_cons] at hnd
    rcases hnd with ⟨hna, hnt⟩
    rw [List.filterMap_cons]
    cases hf : f a with
    | none => exact ih hnt
    | some b =>
      simp only [List.map_cons, List.nodup_cons]
      refine ⟨?_, ih hnt⟩
      intro hmem
      rcases List.mem_map.mp hmem with ⟨b2, hb2, hkb⟩
      rcases List.mem_filterMap.mp hb2 with ⟨a2, ha2, hfa2⟩
      apply hna
      rw [← hkey a b hf, ← hkb, hkey a2 b2 hfa2]
      exact List.mem_map_of_mem _ ha2

theorem lookupLast_eq_of_perm {α : Type _} {key : α → GroupKey}
    {l l' : List α} (hp : List.Perm l l') (hnd : (l.map key).Nodup)
    (k : GroupKey) : lookupLast key l k = lookupLast key l' k := by
  cases h1 : lookupLast key l k with
  | none =>
    cases h2 : lookupLast key l' k with
    | none => rfl
    | some b =>
      exfalso
      have hb := lookupLast_eq_some h2
      have hk : k ∈ l.map key := by
        rw [← hb.2]
        exact List.mem_map_of_mem _ (hp.symm.subset hb.1)
      have hs : (lookupLast key l k).isSome = true := lookupLast_isSome.mpr hk
      rw [h1] at hs
      cases hs
  | some a =>
    have ha := lookupLast_eq_some h1
    cases h2 : lookupLast key l' k with
    | none =>
      exfalso
      have hk : k ∈ l'.map key := by
        rw [← ha.2]
        exact List.mem_map_of_mem _ (hp.subset ha.1)
      have hs : (lookupLast key l' k).isSome = true :=
        lookupLast_isSome.mpr hk
      rw [h2] at hs
      cases hs
    | some b =>
      have hb := lookupLast_eq_some h2
      have hab : a = b :=
        List.inj_on_of_nodup_map hnd ha.1 (hp.symm.subset hb.1)
          (by rw [ha.2, hb.2])
      rw [hab]

theorem lookupLast_map {α β : Type _} {st : α → β} {key : β → GroupKey}
    {key0 : α → GroupKey} (hc : ∀ a, key (st a) = key0 a) (l : List α)
    (k : GroupKey) :
    lookupLast key (l.map st) k = (lookupLast key0 l k).map st := by
  unfold lookupLast
  rw [← List.map_reverse, List.find?_map st l.reverse]
  have : ((fun b => decide (key b = k)) ∘ st) =
      (fun a => decide (key0 a = k)) := by
    funext a
    simp [hc a]
  rw [this]

theorem tier1_row_strip (sqrtFn : ℚ → ℚ) (logs : List LogEntry)
    (mean std z : ℚ) (k : GroupKey) :
    (tier1_row sqrtFn logs mean std z k).map stripT1 =
    t1F sqrtFn mean std z k (groupOf logs k).length
      (sortVals ((groupOf logs k).map (fun e => (e.timestamp : ℚ))))
      (sampleOf logs k).isSome := by
  cases hs : sampleOf logs k with
  | none => simp [tier1_row, t1F, hs]
  | some s =>
    simp only [tier1_row, t1F, hs, Option.isSome_some, if_true,
      Option.some_bind]
    rw [apply_ite (Option.map stripT1)]
    rfl

theorem run_tier1_eq (sqrtFn : ℚ → ℚ) (logs : List LogEntry) :
    run_tier1 sqrtFn logs =
    sortBy (fun y x => decide (x.methods_fired.length < y.methods_fired.length))
      ((keysOf logs).filterMap (fun k => tier1_row sqrtFn logs
        (t1mean logs) (t1std sqrtFn logs) (t1z sqrtFn logs k) k)) := rfl

theorem run_tier1_strip_perm (sqrtFn : ℚ → ℚ) {logs logs' : List LogEntry}
    (hp : List.Perm logs logs') :
    List.Perm ((run_tier1 sqrtFn logs).map stripT1)
      ((run_tier1 sqrtFn logs').map stripT1) := by
  have hcnt : ∀ k, (groupOf logs' k).length = (groupOf logs k).length :=
    fun k => (groupOf_perm hp k).symm.length_eq
  have hts : ∀ k,
      sortVals ((groupOf logs' k).map (fun e => (e.timestamp : ℚ))) =
      sortVals ((groupOf logs k).map (fun e => (e.timestamp : ℚ))) :=
    fun k => sortVals_perm_eq ((groupOf_perm hp k).symm.map _)
  have hsmp : ∀ k, (sampleOf logs' k).isSome = (sampleOf logs k).isSome :=
    fun k => (sampleOf_isSome_perm hp k).symm
  have hvalsP : List.Perm (t1vals logs') (t1vals logs) := by
    unfold t1vals
    have hfun : (keysOf logs').map (fun k => ((groupOf logs' k).length : ℚ)) =
        (keysOf logs').map (fun k => ((groupOf logs k).length : ℚ)) :=
      List.map_congr_left (fun k _ => by rw [hcnt k])
    rw [hfun]
    exact (keysOf_perm hp).symm.map _
  have hmean : t1mean logs' = t1mean logs := meanL_perm hvalsP
  have hstd : t1std sqrtFn logs' = t1std sqrtFn logs :=
    congrArg sqrtFn (varL_perm hvalsP)
  have hz : ∀ k, t1z sqrtFn logs' k = t1z sqrtFn logs k := by
    intro k
    unfold t1z
    rw [hstd, hmean, hcnt k]
  rw [run_tier1_eq, run_tier1_eq]
  refine ((sortBy_perm _ _).map stripT1).trans
    (List.Perm.trans ?_ ((sortBy_perm _ _).map stripT1).symm)
  rw [List.map_filterMap, List.map_filterMap]
  have hpt : ∀ k, (tier1_row sqrtFn logs' (t1mean logs') (t1std sqrtFn logs')
      (t1z sqrtFn logs' k) k).map stripT1 =
      (tier1_row sqrtFn logs (t1mean logs) (t1std sqrtFn logs)
        (t1z sqrtFn logs k) k).map stripT1 := by
    intro k
    rw [tier1_row_strip, tier1_row_strip, hmean, hstd, hz k, hcnt k, hts k,
      hsmp k]
  have hcong : (keysOf logs').filterMap (fun k =>
      (tier1_row sqrtFn logs' (t1mean logs') (t1std sqrtFn logs')
        (t1z sqrtFn logs' k) k).map stripT1) =
      (keysOf logs').filterMap (fun k =>
      (tier1_row sqrtFn logs (t1mean logs) (t1std sqrtFn logs)
        (t1z sqrtFn logs k) k).map stripT1) :=
    List.filterMap_congr (fun k _ => hpt k)
  rw [hcong]
  exact (keysOf_perm hp).filterMap _

theorem extract_strip (sqrtFn : ℚ → ℚ) (logs : List LogEntry) :
    (extract_features sqrtFn logs).map stripFV =
    (keysOf logs).filterMap (fun k =>
      fxF sqrtFn k (groupOf logs k).length
        ((sortBy (fun y x => decide (y.timestamp < x.timestamp))
          (groupOf logs k)).map (fun e => (e.timestamp : ℚ)))
        (meanL ((sortBy (fun y x => decide (y.timestamp < x.timestamp))
          (groupOf logs k)).map (fun e => (e.bytes_sent : ℚ))))
        (varL ((sortBy (fun y x => decide (y.timestamp < x.timestamp))
          (groupOf logs k)).map (fun e => (e.bytes_sent : ℚ))))
        ((sortBy (fun y x => decide (y.timestamp < x.timestamp))
          (groupOf logs k)).map (fun e => pathOf e.url)).dedup.length
        ((sortBy (fun y x => decide (y.timestamp < x.timestamp))
          (groupOf logs k)).map (fun e => pathOf e.url)).length
        ((sortBy (fun y x => decide (y.timestamp < x.timestamp))
          (groupOf logs k)).countP (fun e =>
            decide (hourOf e.timestamp < 8 ∨ hourOf e.timestamp ≥ 20)))
        (sortBy (fun y x => decide (y.timestamp < x.timestamp))
          (groupOf logs k)).length
        (sampleOf logs k).isSome) := by
  unfold extract_features
  rw [List.map_filterMap]
  apply List.filterMap_congr
  intro k _
  cases hs : sampleOf logs k with
  | none => simp [hs, fxF]
  | some s =>
    simp only [hs, Option.some_bind, fxF, Option.isSome_some, if_true]
    rw [apply_ite (Option.map stripFV), apply_ite (Option.map stripFV)]
    rfl

theorem extract_strip_perm (sqrtFn : ℚ → ℚ) {logs logs' : List LogEntry}
    (hp : List.Perm logs logs') :
    List.Perm ((extract_features sqrtFn logs).map stripFV)
      ((extract_features sqrtFn logs').map stripFV) := by
  have hgp : ∀ k, List.Perm (groupOf logs' k) (groupOf logs k) :=
    fun k => (groupOf_perm hp k).symm
  have hsp : ∀ k, List.Perm
      (sortBy (fun y x => decide (y.timestamp < x.timestamp))
        (groupOf logs' k))
      (sortBy (fun y x => decide (y.timestamp < x.timestamp))
        (groupOf logs k)) :=
    fun k => (sortBy_perm _ _).trans ((hgp k).trans (sortBy_perm _ _).symm)
  have htsZ : ∀ k,
      (sortBy (fun y x => decide (y.timestamp < x.timestamp))
        (groupOf logs' k)).map (fun e => e.timestamp) =
      (sortBy (fun y x => decide (y.timestamp < x.timestamp))
        (groupOf logs k)).map (fun e => e.timestamp) :=
    fun k => sortBy_map_val_eq (fun e => e.timestamp) (hgp k)
  have hcast : ∀ (m : List LogEntry),
      m.map (fun e => (e.timestamp : ℚ)) =
      (m.map (fun e => e.timestamp)).map (fun z : ℤ => (z : ℚ)) :=
    fun m => by
      rw [List.map_map]
      rfl
  have hts : ∀ k,
      (sortBy (fun y x => decide (y.timestamp < x.timestamp))
        (groupOf logs' k)).map (fun e => (e.timestamp : ℚ)) =
      (sortBy (fun y x => decide (y.timestamp < x.timestamp))
        (groupOf logs k)).map (fun e => (e.timestamp : ℚ)) := by
    intro k
    rw [hcast, hcast, htsZ k]
  rw [extract_strip, extract_strip]
  have hcong : (keysOf logs').filterMap (fun k =>
      fxF sqrtFn k (groupOf logs' k).length
        ((sortBy (fun y x => decide (y.timestamp < x.timestamp))
          (groupOf logs' k)).map (fun e => (e.timestamp : ℚ)))
        (meanL ((sortBy (fun y x => decide (y.timestamp < x.timestamp))
          (groupOf logs' k)).map (fun e => (e.bytes_sent : ℚ))))
        (varL ((sortBy (fun y x => decide (y.timestamp < x.timestamp))
          (groupOf logs' k)).map (fun e => (e.bytes_sent : ℚ))))
        ((sortBy (fun y x => decide (y.timestamp < x.timestamp))
          (groupOf logs' k)).map (fun e => pathOf e.url)).dedup.length
        ((sortBy (fun y x => decide (y.timestamp < x.timestamp))
          (groupOf logs' k)).map (fun e => pathOf e.url)).length
        ((sortBy (fun y x => decide (y.timestamp < x.timestamp))
          (groupOf logs' k)).countP (fun e =>
            decide (hourOf e.timestamp < 8 ∨ hourOf e.timestamp ≥ 20)))
        (sortBy (fun y x => decide (y.timestamp < x.timestamp))
          (groupOf logs' k)).length
        (sampleOf logs' k).isSome) =
      (keysOf logs').filterMap (fun k =>
      fxF sqrtFn k (groupOf logs k).length
        ((sortBy (fun y x => decide (y.timestamp < x.timestamp))
          (groupOf logs k)).map (fun e => (e.timestamp : ℚ)))
        (meanL ((sortBy (fun y x => decide (y.timestamp < x.timestamp))
          (groupOf logs k)).map (fun e => (e.bytes_sent : ℚ))))
        (varL ((sortBy (fun y x => decide (y.timestamp < x.timestamp))
          (groupOf logs k)).map (fun e => (e.bytes_sent : ℚ))))
        ((sortBy (fun y x => decide (y.timestamp < x.timestamp))
          (groupOf logs k)).map (fun e => pathOf e.url)).dedup.length
        ((sortBy (fun y x => decide (y.timestamp < x.timestamp))
          (groupOf logs k)).map (fun e => pathOf e.url)).length
        ((sortBy (fun y x => decide (y.timestamp < x.timestamp))
          (groupOf logs k)).countP (fun e =>
            decide (hourOf e.timestamp < 8 ∨ hourOf e.timestamp ≥ 20)))
        (sortBy (fun y x => decide (y.timestamp < x.timestamp))
          (groupOf logs k)).length
        (sampleOf logs k).isSome) := by
    apply List.filterMap_congr
    intro k _
    rw [(hgp k).length_eq, hts k, meanL_perm ((hsp k).map _),
      varL_perm ((hsp k).map _), ((hsp k).map (fun e => pathOf e.url)).dedup.length_eq,
      ((hsp k).map (fun e => pathOf e.url)).length_eq,
      (hsp k).countP_eq, (hsp k).length_eq, sampleOf_isSome_perm hp.symm k]
  rw [hcong]
  exact (keysOf_perm hp).filterMap _

theorem normalize_scores_eq_map (scores : List ℚ) :
    normalize_scores scores = scores.map (confOf
      (minL (scores.map (fun s => -s))) (maxL (scores.map (fun s => -s)))) := by
  unfold normalize_scores confOf
  by_cases h : maxL (scores.map (fun s => -s)) = minL (scores.map (fun s => -s))
  · rw [if_pos h]
    apply List.map_congr_left
    intro a _
    rw [if_pos h]
  · rw [if_neg h, List.map_map]
    apply List.map_congr_left
    intro a _
    rw [if_neg h]
    rfl

theorem raw_scores_eq (g : List ℚ → ℚ) (scaler : Scaler)
    (vectors : List FeatureVector) :
    (transformM scaler (to_matrix vectors)).map g =
    vectors.map (rawOf g scaler) := by
  unfold transformM to_matrix rawOf
  rw [List.map_map, List.map_map]
  rfl

theorem zip_self_map {α β : Type _} (l : List α) (h : α → β) :
    l.zip (l.map h) = l.map (fun a => (a, h a)) := by
  have hz := List.zip_map' id h l
  rw [List.map_id] at hz
  rw [hz]
  rfl

theorem tier2_row_strip_inv (scaler : Scaler) (v : FeatureVector)
    (c r : ℚ) :
    (tier2_row scaler (v, c, r)).map stripT2 =
    (tier2_row scaler (stripFV v, c, r)).map stripT2 := by
  simp only [tier2_row]
  rw [apply_ite (Option.map stripT2), apply_ite (Option.map stripT2)]
  rfl

theorem tier2_tail_strip (g : List ℚ → ℚ) (scaler : Scaler)
    (vectors : List FeatureVector) :
    ((vectors.zip ((normalize_scores
        ((transformM scaler (to_matrix vectors)).map g)).zip
        ((transformM scaler (to_matrix vectors)).map g))).filterMap
      (tier2_row scaler)).map stripT2 =
    (vectors.map stripFV).filterMap (t2F g scaler
      (minL ((vectors.map (rawOf g scaler)).map (fun s => -s)))
      (maxL ((vectors.map (rawOf g scaler)).map (fun s => -s)))) := by
  rw [raw_scores_eq g scaler vectors]
  rw [normalize_scores_eq_map (vectors.map (rawOf g scaler))]
  rw [List.map_map]
  rw [List.zip_map']
  rw [zip_self_map]
  rw [List.filterMap_map]
  rw [List.map_filterMap]
  rw [List.filterMap_map]
  apply List.filterMap_congr
  intro v _
  exact tier2_row_strip_inv scaler v _ _

theorem run_tier2_strip_canon (g : List ℚ → ℚ) (scaler : Scaler)
    (logs : List LogEntry) (skip_keys : List GroupKey) (sqrtFn : ℚ → ℚ) :
    List.Perm ((run_tier2 g scaler logs skip_keys sqrtFn).map stripT2)
      (((vecsOf sqrtFn logs skip_keys).map stripFV).filterMap
        (t2F g scaler (mnOf g scaler sqrtFn logs skip_keys)
          (mxOf g scaler sqrtFn logs skip_keys))) := by
  unfold run_tier2
  by_cases h0 : (extract_features sqrtFn logs).isEmpty
  · rw [if_pos h0]
    have hv : vecsOf sqrtFn logs skip_keys = [] := by
      unfold vecsOf
      rw [List.isEmpty_iff.mp h0]
      rfl
    rw [hv]
    simp
  · rw [if_neg h0]
    by_cases h1 : ((extract_features sqrtFn logs).filter
        (fun v => decide ((v.src_ip, v.domain) ∉ skip_keys))).isEmpty
    · rw [if_pos h1]
      have hv : vecsOf sqrtFn logs skip_keys = [] := List.isEmpty_iff.mp h1
      rw [hv]
      simp
    · rw [if_neg h1]
      refine ((sortBy_perm _ _).map stripT2).trans ?_
      rw [tier2_tail_strip g scaler]
      exact List.Perm.refl _

theorem run_tier2_strip_perm (g : List ℚ → ℚ) (scaler : Scaler)
    (sqrtFn : ℚ → ℚ) {logs logs' : List LogEntry}
    {skip skip' : List GroupKey} (hp : List.Perm logs logs')
    (hskip : ∀ x, x ∈ skip ↔ x ∈ skip') :
    List.Perm ((run_tier2 g scaler logs skip sqrtFn).map stripT2)
      ((run_tier2 g scaler logs' skip' sqrtFn).map stripT2) := by
  have hcomm : ∀ (sk : List GroupKey) (l : List FeatureVector),
      (l.filter (fun v => decide ((v.src_ip, v.domain) ∉ sk))).map stripFV =
      (l.map stripFV).filter
        (fun v => decide ((v.src_ip, v.domain) ∉ sk)) := by
    intro sk l
    rw [List.filter_map]
    rfl
  have hvec : List.Perm ((vecsOf sqrtFn logs skip).map stripFV)
      ((vecsOf sqrtFn logs' skip').map stripFV) := by
    unfold vecsOf
    rw [hcomm skip, hcomm skip']
    have hfc : ((extract_features sqrtFn logs').map stripFV).filter
        (fun v => decide ((v.src_ip, v.domain) ∉ skip')) =
        ((extract_features sqrtFn logs').map stripFV).filter
        (fun v => decide ((v.src_ip, v.domain) ∉ skip)) :=
      List.filter_congr (fun v _ =>
        decide_eq_decide.mpr (not_congr (hskip _).symm))
    rw [hfc]
    exact (extract_strip_perm sqrtFn hp).filter _
  have hfac : ∀ (lg : List LogEntry) (sk : List GroupKey),
      (vecsOf sqrtFn lg sk).map (rawOf g scaler) =
      ((vecsOf sqrtFn lg sk).map stripFV).map (rawOf g scaler) := by
    intro lg sk
    rw [List.map_map]
    rfl
  have hraws : List.Perm (rawsOf g scaler sqrtFn logs skip)
      (rawsOf g scaler sqrtFn logs' skip') := by
    unfold rawsOf
    rw [hfac, hfac]
    exact hvec.map _
  have hmn : mnOf g scaler sqrtFn logs skip =
      mnOf g scaler sqrtFn logs' skip' := by
    unfold mnOf
    exact minL_perm (hraws.map _)
  have hmx : mxOf g scaler sqrtFn logs skip =
      mxOf g scaler sqrtFn logs' skip' := by
    unfold mxOf
    exact maxL_perm (hraws.map _)
  refine (run_tier2_strip_canon g scaler logs skip sqrtFn).trans
    (List.Perm.trans ?_
      (run_tier2_strip_canon g scaler logs' skip' sqrtFn).symm)
  rw [hmn, hmx]
  exact hvec.filterMap _

theorem tier3_row_strip
    (explain_fn : Option Tier1Result → Option Tier2Result →
      Except String Explanation)
    (hok : ∀ a b, ∃ e, explain_fn a b = Except.ok e)
    (t1s : List Tier1Result) (t2s : List Tier2Result) (k : GroupKey) :
    (tier3_row explain_fn t1s t2s k).map stripT3 =
    t3F ((lookupLast t1Key t1s k).map stripT1)
      ((lookupLast t2Key t2s k).map stripT2) := by
  rcases hok (lookupLast t1Key t1s k) (lookupLast t2Key t2s k) with ⟨e, he⟩
  cases h1 : lookupLast t1Key t1s k with
  | none =>
    cases h2 : lookupLast t2Key t2s k with
    | none =>
      rw [h1, h2] at he
      simp only [tier3_row, t3F, h1, h2, he, Option.map_none',
        Option.map_some']
      rfl
    | some r2 =>
      rw [h1, h2] at he
      simp only [tier3_row, t3F, h1, h2, he, Option.map_none',
        Option.map_some']
      rfl
  | some r1 =>
    cases h2 : lookupLast t2Key t2s k with
    | none =>
      rw [h1, h2] at he
      simp only [tier3_row, t3F, h1, h2, he, Option.map_none',
        Option.map_some']
      rfl
    | some r2 =>
      rw [h1, h2] at he
      simp only [tier3_row, t3F, h1, h2, he, Option.map_none',
        Option.map_some']
      rfl

theorem run_tier3_strip_perm
    (explain_fn : Option Tier1Result → Option Tier2Result →
      Except String Explanation)
    (hok : ∀ a b, ∃ e, explain_fn a b = Except.ok e)
    {ko ko' : List GroupKey} {t1s t1s' : List Tier1Result}
    {t2s t2s' : List Tier2Result}
    (hko : List.Perm ko ko')
    (h1 : List.Perm (t1s.map stripT1) (t1s'.map stripT1))
    (h2 : List.Perm (t2s.map stripT2) (t2s'.map stripT2))
    (hnd1 : ((t1s.map stripT1).map t1Key).Nodup)
    (hnd2 : ((t2s.map stripT2).map t2Key).Nodup) :
    List.Perm ((run_tier3 explain_fn ko t1s t2s).map stripT3)
      ((run_tier3 explain_fn ko' t1s' t2s').map stripT3) := by
  simp only [run_tier3]
  refine ((sortBy_perm _ _).map stripT3).trans
    (List.Perm.trans ?_ ((sortBy_perm _ _).map stripT3).symm)
  rw [List.map_filterMap, List.map_filterMap]
  have hm1 : ∀ (l : List Tier1Result) (k2 : GroupKey),
      lookupLast t1Key (l.map stripT1) k2 =
      (lookupLast t1Key l k2).map stripT1 :=
    fun l k2 =>
      lookupLast_map (fun a => (rfl : t1Key (stripT1 a) = t1Key a)) l k2
  have hm2 : ∀ (l : List Tier2Result) (k2 : GroupKey),
      lookupLast t2Key (l.map stripT2) k2 =
      (lookupLast t2Key l k2).map stripT2 :=
    fun l k2 =>
      lookupLast_map (fun a => (rfl : t2Key (stripT2 a) = t2Key a)) l k2
  have hl1 : ∀ k, (lookupLast t1Key t1s k).map stripT1 =
      (lookupLast t1Key t1s' k).map stripT1 := by
    intro k
    rw [← hm1 t1s k, ← hm1 t1s' k]
    exact lookupLast_eq_of_perm h1 hnd1 k
  have hl2 : ∀ k, (lookupLast t2Key t2s k).map stripT2 =
      (lookupLast t2Key t2s' k).map stripT2 := by
    intro k
    rw [← hm2 t2s k, ← hm2 t2s' k]
    exact lookupLast_eq_of_perm h2 hnd2 k
  have hpt : ∀ k, (tier3_row explain_fn t1s t2s k).map stripT3 =
      (tier3_row explain_fn t1s' t2s' k).map stripT3 := by
    intro k
    rw [tier3_row_strip explain_fn hok, tier3_row_strip explain_fn hok,
      hl1 k, hl2 k]
  rw [List.filterMap_congr (fun k _ => hpt k)]
  exact hko.filterMap _

theorem tier1_row_key {sqrtFn : ℚ → ℚ} {logs : List LogEntry}
    {mean std z : ℚ} {k : GroupKey} {r : Tier1Result}
    (h : tier1_row sqrtFn logs mean std z k = some r) : t1Key r = k := by
  simp only [tier1_row] at h
  rcases Option.bind_eq_some.mp h with ⟨s, hs, h2⟩
  split_ifs at h2
  all_goals first
  | exact Option.noConfusion h2
  | (obtain rfl := (Option.some.inj h2).symm; rfl)

theorem run_tier1_keys_nodup (sqrtFn : ℚ → ℚ) (logs : List LogEntry) :
    ((run_tier1 sqrtFn logs).map t1Key).Nodup := by
  rw [run_tier1_eq]
  apply (List.Perm.nodup_iff ((sortBy_perm _ _).map t1Key)).mpr
  apply filterMap_key_nodup (fun k => k) t1Key
    (fun k => tier1_row sqrtFn logs (t1mean logs) (t1std sqrtFn logs)
      (t1z sqrtFn logs k) k)
  · intro a b h
    exact tier1_row_key h
  · rw [List.map_id']
    exact dedupF_nodup _

theorem extract_keys_nodup (sqrtFn : ℚ → ℚ) (logs : List LogEntry) :
    ((extract_features sqrtFn logs).map
      (fun v : FeatureVector => (v.src_ip, v.domain))).Nodup := by
  unfold extract_features
  apply filterMap_key_nodup (fun k => k)
    (fun v : FeatureVector => (v.src_ip, v.domain)) _ ?hkey ?hnd
  case hkey =>
    intro k v h
    rcases Option.bind_eq_some.mp h with ⟨s, hs, h2⟩
    dsimp only at h2
    split_ifs at h2
    all_goals first
    | exact Option.noConfusion h2
    | (obtain rfl := (Option.some.inj h2).symm; rfl)
  case hnd =>
    rw [List.map_id']
    exact dedupF_nodup _

theorem tier2_row_key {scaler : Scaler} {vcr : FeatureVector × ℚ × ℚ}
    {res : Tier2Result} (h : tier2_row scaler vcr = some res) :
    res.src_ip = vcr.1.src_ip ∧ res.domain = vcr.1.domain := by
  simp only [tier2_row] at h
  split_ifs at h
  obtain rfl := (Option.some.inj h).symm
  exact ⟨rfl, rfl⟩

theorem t2F_key {g : List ℚ → ℚ} {scaler : Scaler} {mn mx : ℚ}
    {w : FeatureVector} {res : Tier2Result}
    (h : t2F g scaler mn mx w = some res) :
    t2Key res = (w.src_ip, w.domain) := by
  unfold t2F at h
  cases h0 : tier2_row scaler
      (w, confOf mn mx (rawOf g scaler w), rawOf g scaler w) with
  | none =>
    rw [h0] at h
    cases h
  | some res0 =>
    rw [h0, Option.map_some'] at h
    obtain rfl := (Option.some.inj h).symm
    have hk := tier2_row_key h0
    show (res0.src_ip, res0.domain) = (w.src_ip, w.domain)
    rw [hk.1, hk.2]

theorem run_tier1_strip_keys_nodup (sqrtFn : ℚ → ℚ)
    (logs : List LogEntry) :
    (((run_tier1 sqrtFn logs).map stripT1).map t1Key).Nodup := by
  rw [List.map_map]
  have hf : (t1Key ∘ stripT1) = t1Key := rfl
  rw [hf]
  exact run_tier1_keys_nodup sqrtFn logs

theorem run_tier2_strip_keys_nodup (g : List ℚ → ℚ) (scaler : Scaler)
    (logs : List LogEntry) (skip_keys : List GroupKey) (sqrtFn : ℚ → ℚ) :
    (((run_tier2 g scaler logs skip_keys sqrtFn).map stripT2).map
      t2Key).Nodup := by
  apply (List.Perm.nodup_iff
    ((run_tier2_strip_canon g scaler logs skip_keys sqrtFn).map t2Key)).mpr
  apply filterMap_key_nodup (fun w : FeatureVector => (w.src_ip, w.domain))
    t2Key _ ?hkey ?hnd
  case hkey =>
    intro w res h
    exact t2F_key h
  case hnd =>
    rw [List.map_map]
    have hf : ((fun w : FeatureVector => (w.src_ip, w.domain)) ∘ stripFV) =
        (fun w : FeatureVector => (w.src_ip, w.domain)) := rfl
    rw [hf]
    unfold vecsOf
    exact ((List.filter_sublist _).map _).nodup
      (extract_keys_nodup sqrtFn logs)

/-- C5, amended.  For every permutation of the input logs, `run_pipeline`
produces the same counters (`total_logs`, `tier1_flagged`, `tier2_flagged`,
`tier3_explained`) and the same multiset of anomalies up to the
representative-record dependent fields (`username`, `sample_entry`,
`feature_vector.username`/`sample_entry` and the narrative texts, all
neutralised by `stripT3`), provided the explainer always succeeds (as the
shipped rule-template explainer does).  Output order and the stripped
fields themselves are not preserved in general. -/
theorem c5_pipeline_perm_invariant (sqrtFn : ℚ → ℚ) (g : List ℚ → ℚ)
    (scaler : Scaler)
    (explain_fn : Option Tier1Result → Option Tier2Result →
      Except String Explanation)
    (hok : ∀ a b, ∃ e, explain_fn a b = Except.ok e)
    {logs logs' : List LogEntry} (hp : List.Perm logs logs') :
    (run_pipeline sqrtFn g scaler explain_fn logs).total_logs =
      (run_pipeline sqrtFn g scaler explain_fn logs').total_logs ∧
    (run_pipeline sqrtFn g scaler explain_fn logs).tier1_flagged =
      (run_pipeline sqrtFn g scaler explain_fn logs').tier1_flagged ∧
    (run_pipeline sqrtFn g scaler explain_fn logs).tier2_flagged =
      (run_pipeline sqrtFn g scaler explain_fn logs').tier2_flagged ∧
    (run_pipeline sqrtFn g scaler explain_fn logs).tier3_explained =
      (run_pipeline sqrtFn g scaler explain_fn logs').tier3_explained ∧
    List.Perm
      ((run_pipeline sqrtFn g scaler explain_fn logs).anomalies.map stripT3)
      ((run_pipeline sqrtFn g scaler explain_fn
        logs').anomalies.map stripT3) := by
  have h1 := run_tier1_strip_perm sqrtFn hp
  have hfac1 : ∀ (l : List Tier1Result),
      ((l.map stripT1).filter (fun r => r.methods_fired.length = 3)).map
        t1Key =
      (l.filter (fun r => r.methods_fired.length = 3)).map t1Key := by
    intro l
    rw [List.filter_map, List.map_map]
    rfl
  have hskip : ∀ x,
      x ∈ ((run_tier1 sqrtFn logs).filter
        (fun r => r.methods_fired.length = 3)).map t1Key ↔
      x ∈ ((run_tier1 sqrtFn logs').filter
        (fun r => r.methods_fired.length = 3)).map t1Key := by
    intro x
    rw [← hfac1 (run_tier1 sqrtFn logs), ← hfac1 (run_tier1 sqrtFn logs')]
    exact ((h1.filter _).map _).mem_iff
  have h2 := run_tier2_strip_perm g scaler sqrtFn hp hskip
  have hfacm1 : ∀ (l : List Tier1Result),
      (l.map stripT1).map t1Key = l.map t1Key := by
    intro l
    rw [List.map_map]
    rfl
  have hfacm2 : ∀ (l : List Tier2Result),
      (l.map stripT2).map t2Key = l.map t2Key := by
    intro l
    rw [List.map_map]
    rfl
  have hk1 : List.Perm ((run_tier1 sqrtFn logs).map t1Key)
      ((run_tier1 sqrtFn logs').map t1Key) := by
    rw [← hfacm1 (run_tier1 sqrtFn logs), ← hfacm1 (run_tier1 sqrtFn logs')]
    exact h1.map _
  have hk2 : List.Perm
      ((run_tier2 g scaler logs (((run_tier1 sqrtFn logs).filter
        (fun r => r.methods_fired.length = 3)).map t1Key) sqrtFn).map t2Key)
      ((run_tier2 g scaler logs' (((run_tier1 sqrtFn logs').filter
        (fun r => r.methods_fired.length = 3)).map t1Key) sqrtFn).map
        t2Key) := by
    rw [← hfacm2 (run_tier2 g scaler logs (((run_tier1 sqrtFn logs).filter
        (fun r => r.methods_fired.length = 3)).map t1Key) sqrtFn),
      ← hfacm2 (run_tier2 g scaler logs' (((run_tier1 sqrtFn logs').filter
        (fun r => r.methods_fired.length = 3)).map t1Key) sqrtFn)]
    exact h2.map _
  have hko : List.Perm
      (unionKeys (run_tier1 sqrtFn logs)
        (run_tier2 g scaler logs (((run_tier1 sqrtFn logs).filter
          (fun r => r.methods_fired.length = 3)).map t1Key) sqrtFn))
      (unionKeys (run_tier1 sqrtFn logs')
        (run_tier2 g scaler logs' (((run_tier1 sqrtFn logs').filter
          (fun r => r.methods_fired.length = 3)).map t1Key) sqrtFn)) := by
    unfold unionKeys
    exact dedupF_perm (hk1.append hk2)
  have hnd1 := run_tier1_strip_keys_nodup sqrtFn logs
  have hnd2 := run_tier2_strip_keys_nodup g scaler logs
    (((run_tier1 sqrtFn logs).filter
      (fun r => r.methods_fired.length = 3)).map t1Key) sqrtFn
  have hanom := run_tier3_strip_perm explain_fn hok hko h1 h2 hnd1 hnd2
  simp only [run_pipeline]
  refine ⟨hp.length_eq, ?_, ?_, ?_, hanom⟩
  · have := h1.length_eq
    simpa using this
  · have := h2.length_eq
    simpa using this
  · have := hanom.length_eq
    simpa using this

theorem map_singleton_inv {α β : Type _} {f : α → β} {l : List α} {b : β}
    (h : l.map f = [b]) : ∃ a, l = [a] ∧ f a = b := by
  cases l with
  | nil => simp at h
  | cons x t =>
    cases t with
    | nil =>
      simp only [List.map_cons, List.map_nil, List.cons.injEq] at h
      exact ⟨x, rfl, h.1⟩
    | cons y u => simp at h

theorem run_tier2_nil_of_extract (g : List ℚ → ℚ) (scaler : Scaler)
    (logs : List LogEntry) (skip_keys : List GroupKey) (sqrtFn : ℚ → ℚ)
    (h : extract_features sqrtFn logs = []) :
    run_tier2 g scaler logs skip_keys sqrtFn = [] := by
  unfold run_tier2
  rw [h]
  rfl

theorem run_tier3_single_user (r1 : Tier1Result) :
    (run_tier3 mockOk (unionKeys [r1] []) [r1] []).map
      Tier3Result.username = [r1.username] := by
  have hu : unionKeys [r1] [] = [t1Key r1] := rfl
  have hl1 : lookupLast t1Key [r1] (t1Key r1) = some r1 := by
    unfold lookupLast
    simp
  have hl2 : lookupLast t2Key ([] : List Tier2Result) (t1Key r1) = none :=
    rfl
  rw [hu]
  simp only [run_tier3, List.filterMap, tier3_row, hl1, hl2, mockOk]
  simp [sortBy, insBy, pickIdent]

set_option maxRecDepth 40000 in
set_option maxHeartbeats 4000000 in
theorem run_tier1_logsA_user :
    (run_tier1 ratSqrt logsA).map (fun r =>
      (r.src_ip, r.domain, r.username)) =
    [("10.0.0.5", "evil.c2", "alice")] := by
  norm_num [run_tier1, tier1_row, keysOf, dedupF, groupOf, sampleOf, keyOf,
    domainOf, wEntry, logsA, sortVals, sortBy, insBy, diffL, meanL, varL,
    percentileL, ratSqrt, severityOf, minL, maxL, pyRound, nthD,
    ZSCORE_THRESHOLD, INTERVAL_MAX_AVG_S, INTERVAL_MAX_JITTER_S, IQR_MAX,
    MIN_REQUESTS, List.filterMap, List.find?, Nat.sqrt, Int.toNat_ofNat]
  decide

theorem logsA_reverse_eq : logsA.reverse = logsArev := rfl

set_option maxRecDepth 40000 in
set_option maxHeartbeats 4000000 in
theorem run_tier1_logsArev_user :
    (run_tier1 ratSqrt logsArev).map (fun r =>
      (r.src_ip, r.domain, r.username)) =
    [("10.0.0.5", "evil.c2", "bob")] := by
  norm_num [run_tier1, tier1_row, keysOf, dedupF, groupOf, sampleOf, keyOf,
    domainOf, wEntry, logsArev, sortVals, sortBy, insBy, diffL, meanL, varL,
    percentileL, ratSqrt, severityOf, minL, maxL, pyRound, nthD,
    ZSCORE_THRESHOLD, INTERVAL_MAX_AVG_S, INTERVAL_MAX_JITTER_S, IQR_MAX,
    MIN_REQUESTS, List.filterMap, List.find?, Nat.sqrt, Int.toNat_ofNat]
  decide

/-- C5, counterexample.  Reversing `logsA` (a permutation) changes the
`username` of the single reported anomaly from `alice` to `bob`: the
representative record `samples[key]` is the first entry of the key in input
order, so `run_pipeline` is not permutation invariant on
representative-record derived fields. -/
theorem c5_counterexample :
    List.Perm logsA logsA.reverse ∧
    (run_pipeline ratSqrt gW scalerU mockOk logsA).anomalies.map
      Tier3Result.username = ["alice"] ∧
    (run_pipeline ratSqrt gW scalerU mockOk logsA.reverse).anomalies.map
      Tier3Result.username = ["bob"] ∧
    run_pipeline ratSqrt gW scalerU mockOk logsA ≠
      run_pipeline ratSqrt gW scalerU mockOk logsA.reverse := by
  have hA : (run_pipeline ratSqrt gW scalerU mockOk logsA).anomalies.map
      Tier3Result.username = ["alice"] := by
    simp only [run_pipeline]
    rw [run_tier2_nil_of_extract gW scalerU logsA _ ratSqrt (by decide)]
    rcases map_singleton_inv run_tier1_logsA_user with ⟨r1, ht1, hval⟩
    rw [ht1, run_tier3_single_user r1]
    simp only [Prod.mk.injEq] at hval
    rw [hval.2.2]
  have hB : (run_pipeline ratSqrt gW scalerU mockOk
      logsA.reverse).anomalies.map Tier3Result.username = ["bob"] := by
    rw [logsA_reverse_eq]
    simp only [run_pipeline]
    rw [run_tier2_nil_of_extract gW scalerU logsArev _ ratSqrt (by decide)]
    rcases map_singleton_inv run_tier1_logsArev_user with ⟨r1, ht1, hval⟩
    rw [ht1, run_tier3_single_user r1]
    simp only [Prod.mk.injEq] at hval
    rw [hval.2.2]
  refine ⟨(List.reverse_perm logsA).symm, hA, hB, ?_⟩
  intro he
  have hc := congrArg
    (fun p : PipelineResult => p.anomalies.map Tier3Result.username) he
  simp only at hc
  rw [hA, hB] at hc
  exact absurd (List.cons.inj hc).1 (by decide)

/-- C5, witness: the amended theorem at a concrete permutation pair —
`logsA` against its reversal, with the rule-template explainer. -/
theorem c5_witness :
    (run_pipeline ratSqrt gW scalerU mockOk logsA).total_logs =
      (run_pipeline ratSqrt gW scalerU mockOk logsA.reverse).total_logs ∧
    (run_pipeline ratSqrt gW scalerU mockOk logsA).tier1_flagged =
      (run_pipeline ratSqrt gW scalerU mockOk logsA.reverse).tier1_flagged ∧
    (run_pipeline ratSqrt gW scalerU mockOk logsA).tier2_flagged =
      (run_pipeline ratSqrt gW scalerU mockOk logsA.reverse).tier2_flagged ∧
    (run_pipeline ratSqrt gW scalerU mockOk logsA).tier3_explained =
      (run_pipeline ratSqrt gW scalerU mockOk
        logsA.reverse).tier3_explained ∧
    List.Perm
      ((run_pipeline ratSqrt gW scalerU mockOk logsA).anomalies.map
        stripT3)
      ((run_pipeline ratSqrt gW scalerU mockOk
        logsA.reverse).anomalies.map stripT3) :=
  c5_pipeline_perm_invariant ratSqrt gW scalerU mockOk
    (fun a b => ⟨mock_explanation a b, rfl⟩)
    (List.reverse_perm logsA).symm

